import Mathlib

/-! # UV exposure box controller (`UV_exp_ino.h`)

A shallow embedding of the Arduino sketch.  The sketch runs on an 8-bit AVR
board: `int` is a 16-bit two's complement integer, `long` has 32 bits and
`unsigned long` is a 32-bit unsigned integer.  Machine integers are modelled
as `Int`/`Nat`, the result of integer arithmetic being reduced with `wrap16`,
`wrap32` or `wrapU32` according to the type it is computed in or stored to.
The one `float` expression of the sketch, the controller output in `vacuum`,
is evaluated in the 32-bit binary format of `float` (`Float32`): every product
and every sum is rounded to the nearest value of 24 significant binary digits,
a tie going to the even one.  Its conversion to `int` discards the fraction and
never leaves the range of `int` (`floatToInt_pid_range`).

The globals of the sketch are the fields of `Machine`; the three input devices
(pressure bridge, millisecond clock, digital pins) are the streams of `Env`,
read through cursors kept in the machine; the writes to the output pins are
collected, in order, in `Machine.out`.  Calls to the character display and to
`delay` have no effect on any of these and are left out.

The two `do ... while` loops of `expose` need not terminate; they take a bound
on the number of iterations and return `none` when the bound is used up.
-/

namespace UVExp

/-! ## Machine integers -/

/-- Value of an integer after it is stored in a 16-bit `int`. -/
def wrap16 (x : Int) : Int := (x + 32768) % 65536 - 32768

/-- Value of an integer after it is stored in a 32-bit `long`. -/
def wrap32 (x : Int) : Int := (x + 2147483648) % 4294967296 - 2147483648

/-- Value of an integer after it is stored in a 32-bit `unsigned long`. -/
def wrapU32 (x : Int) : Nat := (x % 4294967296).toNat

/-- Value of an `int` argument passed to a `uint8_t` parameter. -/
def toU8 (x : Int) : Fin 256 := ⟨(x % 256).toNat, by omega⟩

/-! ## Arithmetic of `float`

On the AVR target `float` and `double` are both the IEEE 754 binary32 format.
A finite value is kept as a pair of integers; an operation computes the exact
result and rounds it.  The sign of a zero is not recorded: it changes neither a
sum with a non-zero value nor the conversion to `int`.  Results of magnitude
`2 ^ 128` and more, which the format replaces by an infinity, are not
represented; the arguments of line 169 are 16-bit integers, and the values
computed from them stay below `2 ^ 15` (`pid_err`). -/

/-- Number of binary digits of `n`, counted in at most `fuel` halvings;
`bitLength n n` is the number of binary digits of `n`. -/
def bitLength : Nat → Nat → Nat
  | 0, _ => 0
  | fuel + 1, n => if n = 0 then 0 else bitLength fuel (n / 2) + 1

/-- Quotient of `n` by `2 ^ sh`, rounded to the nearest integer, a tie going
to the even one. -/
def roundShift (n sh : Nat) : Nat :=
  let q := n / 2 ^ sh
  let r := n % 2 ^ sh
  if 2 * r < 2 ^ sh then q
  else if 2 ^ sh < 2 * r then q + 1
  else if q % 2 = 0 then q else q + 1

/-- A finite value of type `float`: the number `man * 2 ^ exp`. -/
structure Float32 where
  man : Int
  exp : Int
  deriving DecidableEq, Repr

/-- The number a `Float32` stands for. -/
def Float32.toRat (x : Float32) : ℚ := x.man * (2 : ℚ) ^ x.exp

/-- Rounding of an exact result to the format: the value keeps 24 significant
binary digits, its last place being `2 ^ t` with `t` no smaller than -149, the
last place of the smallest values of the format. -/
def Float32.round (x : Float32) : Float32 :=
  let n := x.man.natAbs
  let t := max (x.exp + (bitLength n n : Int) - 24) (-149)
  if t ≤ x.exp then x
  else { man := x.man.sign * (roundShift n (t - x.exp).toNat : Nat), exp := t }

/-- Conversion of an `int` to `float`. -/
def Float32.ofInt (n : Int) : Float32 := Float32.round { man := n, exp := 0 }

/-- Product of two `float` values. -/
def Float32.mul (x y : Float32) : Float32 :=
  Float32.round { man := x.man * y.man, exp := x.exp + y.exp }

/-- Sum of two `float` values. -/
def Float32.add (x y : Float32) : Float32 :=
  let e := min x.exp y.exp
  Float32.round
    { man := x.man * 2 ^ (x.exp - e).toNat + y.man * 2 ^ (y.exp - e).toNat, exp := e }

/-- Conversion of a `float` to `int`: the fractional part is discarded. -/
def floatToInt (x : Float32) : Int :=
  if 0 ≤ x.exp then x.man * 2 ^ x.exp.toNat else Int.tdiv x.man (2 ^ (-x.exp).toNat)

/-! ## Constants of the sketch -/

def PumpPin : Nat := 9
def Chrome : Nat := 7
def lowLED : Nat := 12
def highLED : Nat := 13
def RotA : Nat := 0
def RotB : Nat := 1
def Rot : Nat := 2
def debTime : Nat := 20

/-- PID parameters (lines 40-42).  A `float` variable initialised with the
decimal fraction 0.52 holds the value of the format nearest to it,
`8724152 * 2 ^ (-24)`; likewise 0.100 is held as `13421773 * 2 ^ (-27)`
(`Kp_Ki_nearest`). -/
def Kp : Float32 := { man := 8724152, exp := -24 }
def Ki : Float32 := { man := 13421773, exp := -27 }
def Kd : Float32 := { man := 0, exp := 0 }

/-! ## Environment and machine state -/

/-- One write to an output pin. -/
inductive Out where
  | digitalWrite (pin : Nat) (level : Bool)
  | pwmWrite (pin : Nat) (val : Int)
  deriving DecidableEq, Repr

/-- The input devices: `sensor k` is the value returned by the `k`-th call of
`sensor.read_average`, `clock k` the time in milliseconds at the `k`-th call of
`millis`, and `pin p k` the level of pin `p` at the `k`-th call of
`digitalRead`. -/
structure Env where
  sensor : Nat → Int
  clock : Nat → Nat
  pin : Nat → Nat → Bool

/-- The global variables of the sketch, the EEPROM, the output writes made so
far and the number of reads made from each input device. -/
@[ext]
structure Machine where
  dblSide : Int
  prevBut : Int
  prevA : Int
  CumDif : Int
  MomDif : Int
  PrevDif : Int
  lastpush : Nat
  startms : Nat
  VacSPoint : Int
  TimeSPoint : Int
  press : Int
  zero : Int
  State : Int
  eeprom : Nat → Fin 256
  out : List Out
  nSensor : Nat
  nClock : Nat
  nRead : Nat

/-- Level of an output pin after the writes `out`: that of the last
`digitalWrite` to it, `LOW` when there is none. -/
def pinLevel (out : List Out) (q : Nat) : Bool :=
  out.foldl (fun lvl e => match e with
    | Out.digitalWrite p l => if p = q then l else lvl
    | Out.pwmWrite _ _ => lvl) false

/-- Drive value of a PWM pin after the writes `out`: that of the last
`pwmWrite` to it, if any. -/
def lastPwm (out : List Out) (q : Nat) : Option Int :=
  out.foldl (fun v e => match e with
    | Out.digitalWrite _ _ => v
    | Out.pwmWrite p x => if p = q then some x else v) none

/-! ## Device access -/

/-- `millis()`: the clock as an `unsigned long`. -/
def millis (env : Env) (m : Machine) : Nat × Machine :=
  (env.clock m.nClock % 4294967296, { m with nClock := m.nClock + 1 })

/-- `digitalRead(p)`: `HIGH` is 1 and `LOW` is 0. -/
def digitalRead (env : Env) (p : Nat) (m : Machine) : Int × Machine :=
  ((if env.pin p m.nRead then 1 else 0), { m with nRead := m.nRead + 1 })

/-- `sensor.read_average(n)`: the averaged raw sample, a `long`. -/
def read_average (env : Env) (m : Machine) : Int × Machine :=
  (wrap32 (env.sensor m.nSensor), { m with nSensor := m.nSensor + 1 })

def digitalWrite (p : Nat) (l : Bool) (m : Machine) : Machine :=
  { m with out := m.out ++ [Out.digitalWrite p l] }

/-- `pwmWrite(p, v)`: the value recorded is the `int` handed to the driver. -/
def pwmWrite (p : Nat) (v : Int) (m : Machine) : Machine :=
  { m with out := m.out ++ [Out.pwmWrite p v] }

def EEPROM_read (a : Nat) (m : Machine) : Int := ((m.eeprom a).val : Int)

def EEPROM_write (a : Nat) (v : Int) (m : Machine) : Machine :=
  { m with eeprom := Function.update m.eeprom a (toU8 v) }

/-! ## Persistent parameters -/

/-- Lines 77-78 of `setup`: the two setpoints are read from the EEPROM. -/
def loadParams (m : Machine) : Machine :=
  let m := { m with VacSPoint := wrap16 (EEPROM_read 11 m + 256 * EEPROM_read 12 m) }
  { m with TimeSPoint := wrap16 (EEPROM_read 13 m + 256 * EEPROM_read 14 m) }

/-- Lines 229-232 of `loop`: the two setpoints are written to the EEPROM. -/
def commitParams (m : Machine) : Machine :=
  let m := EEPROM_write 11 (Int.land m.VacSPoint 0xff) m
  let m := EEPROM_write 12 (m.VacSPoint >>> (8 : Nat)) m
  let m := EEPROM_write 13 (Int.land m.TimeSPoint 0xff) m
  EEPROM_write 14 (m.TimeSPoint >>> (8 : Nat)) m

/-- State of the board at reset: the globals hold their initialisers (zero
where the sketch gives none), nothing has been read or written. -/
def boot (rom : Nat → Fin 256) : Machine :=
  { dblSide := 0, prevBut := 0, prevA := 0, CumDif := 0, MomDif := 0, PrevDif := 0,
    lastpush := 0, startms := 0, VacSPoint := 0, TimeSPoint := 0, press := 0, zero := 0,
    State := 0, eeprom := rom, out := [], nSensor := 0, nClock := 0, nRead := 0 }

def setup (env : Env) (m : Machine) : Machine :=
  let m := loadParams m
  let (z, m) := read_average env m
  { m with zero := z }

/-! ## Input decoder -/

def button (env : Env) (pinNro : Nat) (m : Machine) : Int × Machine :=
  let (butState, m) := digitalRead env pinNro m
  let (t, m) := millis env m
  if wrapU32 ((t : Int) - m.lastpush) > debTime then
    let (t2, m) := millis env m
    let m := { m with lastpush := t2 }
    let (push, m) : Int × Machine :=
      if butState = 0 ∧ m.prevBut = 1 then (1, { m with prevBut := 0 }) else (0, m)
    let m := if butState = 1 ∧ m.prevBut = 0 then { m with prevBut := 1 } else m
    (push, m)
  else
    (0, m)

def rotary (env : Env) (param : Int) (m : Machine) : Machine :=
  let (enCodA, m) := digitalRead env RotA m
  if enCodA ≠ m.prevA then
    let (t, m) := millis env m
    let m := { m with lastpush := t }
    let (b, m) := digitalRead env RotB m
    let muutos : Int := if b ≠ enCodA then 1 else -1
    let m := { m with prevA := enCodA }
    match param with
    | 1 => { m with TimeSPoint := wrap16 (m.TimeSPoint + muutos) }
    | 2 => { m with VacSPoint := wrap16 (m.VacSPoint + muutos) }
    | 3 => { m with dblSide := if muutos > 0 then 1 else 0 }
    | _ => m
  else
    m

/-! ## Vacuum regulator -/

/-- Pressure in hPa computed from a raw sample (line 164). -/
def pressOf (AnVal zero : Int) : Int := wrap16 (Int.tdiv (wrap32 (AnVal - zero)) 20290)

/-- The controller output of line 169, before the upper limit is applied:
`50 + Kp * Dif + Ki * CumDif + Kd * MomDif`, the integer operands converted to
`float`, the operations carried out from left to right in `float`. -/
def pid (Dif CumDif MomDif : Int) : Float32 :=
  Float32.add
    (Float32.add
      (Float32.add (Float32.ofInt 50) (Float32.mul Kp (Float32.ofInt Dif)))
      (Float32.mul Ki (Float32.ofInt CumDif)))
    (Float32.mul Kd (Float32.ofInt MomDif))

/-- Lines 169-170: the controller output as an `int`, limited to 255 from
above. -/
def Cont (Dif CumDif MomDif : Int) : Int :=
  let c := floatToInt (pid Dif CumDif MomDif)
  if c > 255 then 255 else c

def vacuum (env : Env) (m : Machine) : Machine :=
  let (AnVal, m) := read_average env m
  let m := { m with press := pressOf AnVal m.zero }
  let Dif := wrap16 (m.VacSPoint - m.press)
  let m := { m with CumDif := wrap16 (m.CumDif + Dif) }
  let m := { m with MomDif := wrap16 (Dif - m.PrevDif) }
  let m := { m with PrevDif := Dif }
  pwmWrite PumpPin (Cont Dif m.CumDif m.MomDif) m

/-! ## Exposure sequencer -/

/-- Lines 186-188 of `expose`: the pump runs until the set vacuum is reached. -/
def precharge (env : Env) : Nat → Machine → Option Machine
  | 0, _ => none
  | fuel + 1, m =>
    let m := vacuum env m
    if m.press < m.VacSPoint then precharge env fuel m else some m

/-- Lines 190-192 of `expose`: the start time is taken and the LEDs are lit. -/
def exposeStart (env : Env) (m : Machine) : Machine :=
  let (t, m) := millis env m
  let m := { m with startms := t }
  let m := digitalWrite lowLED true m
  if m.dblSide ≠ 0 then digitalWrite highLED true m else m

/-- Body of the loop of lines 194-201: the run time in seconds, the result of
the button poll and the state after the body. -/
def exposeBody (env : Env) (m : Machine) : Int × Int × Machine :=
  let (t, m) := millis env m
  let RunTime := wrap16 ((wrapU32 ((t : Int) - m.startms) / 1000 : Nat) : Int)
  let m := vacuum env m
  let (push, m) := button env Chrome m
  (RunTime, push, m)

/-- Lines 194-201 of `expose`. -/
def exposeLoop (env : Env) : Nat → Machine → Option Machine
  | 0, _ => none
  | fuel + 1, m =>
    let (RunTime, push, m) := exposeBody env m
    if push ≠ 0 then some m
    else if RunTime < m.TimeSPoint then exposeLoop env fuel m
    else some m

/-- Lines 203-206 of `expose`: LEDs and pump are shut down. -/
def exposeEnd (m : Machine) : Machine :=
  let m := digitalWrite lowLED false m
  let m := digitalWrite highLED false m
  let m := pwmWrite PumpPin 0 m
  { m with State := 0 }

def expose (env : Env) (fuel : Nat) (m : Machine) : Option Machine :=
  (precharge env fuel m).bind fun m =>
    (exposeLoop env fuel (exposeStart env m)).map exposeEnd

/-! ## Top-level controller -/

/-- One pass of `loop`.  Only `expose` (state 4) can fail to return; `fuel`
bounds the iterations of its loops. -/
def loop (env : Env) (fuel : Nat) (m : Machine) : Option Machine :=
  match m.State with
  | 0 =>
    let (b, m) := button env Chrome m
    let m := if b ≠ 0 then { m with State := 4 } else m
    let (b, m) := button env Rot m
    some (if b ≠ 0 then { m with State := 1 } else m)
  | 1 =>
    let m := rotary env 1 m
    let (b, m) := button env Rot m
    some (if b ≠ 0 then { m with State := 2 } else m)
  | 2 =>
    let m := rotary env 2 m
    let (b, m) := button env Rot m
    some (if b ≠ 0 then { m with State := 3 } else m)
  | 3 =>
    let m := rotary env 3 m
    let (b, m) := button env Rot m
    some (if b ≠ 0 then { commitParams m with State := 0 } else m)
  | 4 => expose env fuel m
  | _ => some m

/-! ## Notions used in the statements -/

/-- State after one pass through the body of the exposure loop. -/
def exposeIter (env : Env) (m : Machine) : Machine := (exposeBody env m).2.2

/-- Whether the exposure loop ends after the pass that starts in state `m`:
the button poll of line 200 returned non-zero or the test of line 201 failed. -/
def exposeExit (env : Env) (m : Machine) : Bool :=
  decide ((exposeBody env m).2.1 ≠ 0) ||
    !decide ((exposeBody env m).1 < (exposeBody env m).2.2.TimeSPoint)

/-- The decoded step in the words of the specification: 0 when channel A
equals its stored previous value, +1 when A changed and B differs from the new
A, -1 when A changed and B equals the new A. -/
def rotaryStep (prevA A B : Int) : Int :=
  if A = prevA then 0 else if B ≠ A then 1 else -1

/-- Level of channel A sampled by the call of `rotary` that starts in `m`. -/
def sampleA (env : Env) (m : Machine) : Int := (digitalRead env RotA m).1

/-- Level of channel B right after channel A was sampled by that call. -/
def sampleB (env : Env) (m : Machine) : Int :=
  (digitalRead env RotB (digitalRead env RotA m).2).1

/-- One pass of `loop` in state 1 or 2 up to the update of `State`: the call
`rotary(param)` followed by the poll of the encoder button. -/
def configPass (env : Env) (param : Int) (m : Machine) : Machine :=
  (button env Rot (rotary env param m)).2

/-- Sum of the decoded steps of `n` successive calls of `rotary`, where `next`
takes the machine from one call to the next. -/
def stepSum (env : Env) (next : Machine → Machine) : Nat → Machine → Int
  | 0, _ => 0
  | n + 1, m => rotaryStep m.prevA (sampleA env m) (sampleB env m) + stepSum env next n (next m)

/-! ## Sample inputs -/

/-- A store whose bytes are all `0xFF`, as in an EEPROM that was never written. -/
def blankRom : Nat → Fin 256 := fun _ => 255

/-- A machine in stand-by with a negative vacuum setpoint and a large time. -/
def sampleParams : Machine :=
  { boot blankRom with VacSPoint := -300, TimeSPoint := 32767 }

/-- EEPROM holding a vacuum setpoint of 500 hPa and a time of 2 seconds. -/
def romA : Nat → Fin 256 := fun a =>
  if a = 11 then 244 else if a = 12 then 1 else if a = 13 then 2 else 0

/-- The bridge reads -4000000 at rest and then a pressure of 80, 160, ..., 480
and from the seventh sample on 500 hPa; the clock advances by 300 ms from one
reading to the next; every pin reads `HIGH`, so no button is pressed. -/
def envA : Env :=
  { sensor := fun k =>
      if k = 0 then -4000000 else if k ≤ 6 then -4000000 + 20290 * 80 * k
      else -4000000 + 20290 * 500
    clock := fun k => 1000 + 300 * k
    pin := fun _ _ => true }

/-- The machine after `setup` in the environment `envA`. -/
def machineA : Machine := setup envA (boot romA)

/-- The machine `machineA` with the two-sided exposure selected. -/
def machineD : Machine := { machineA with dblSide := 1 }

/-- EEPROM holding a vacuum setpoint of 500 hPa and a time of 60 seconds. -/
def romB : Nat → Fin 256 := fun a =>
  if a = 11 then 244 else if a = 12 then 1 else if a = 13 then 60 else 0

/-- As `envA`, but the chrome button is released at the first read of a pin
and pressed from the second read on. -/
def envB : Env :=
  { envA with pin := fun p k => if p = Chrome then decide (k = 0) else true }

/-- The machine after `setup` in the environment `envB`. -/
def machineB : Machine := setup envB (boot romB)

/-- As `envA`, but the encoder button is held down. -/
def envP : Env :=
  { envA with pin := fun p _ => decide (p ≠ Rot) }

/-- A machine in state 3 (choice of sides) that has seen the button released. -/
def machineP : Machine := { machineA with State := 3, prevBut := 1 }

/-- As `envA`, but the chrome button is pressed at the third read of a pin and
released again afterwards. -/
def envS : Env :=
  { envA with pin := fun p k => if p = Chrome then decide (k ≠ 2) else true }

/-- The machine `machineA` after one pass of `loop` in the environment `envS`. -/
def machineS1 : Machine := (loop envS 0 machineA).getD machineA

/-- The machine `machineS1` after one more pass of `loop`. -/
def machineS2 : Machine := (loop envS 0 machineS1).getD machineS1

/-- The encoder is turned one step forth and one step back while no button is
pressed: channel A is high at the pin reads 0 to 4 and low from read 5 on,
channel B stays low. -/
def envT : Env :=
  { envA with pin := fun p k => if p = RotA then decide (k < 5) else decide (p ≠ RotB) }

/-- A machine in state 1 (time set-up) whose time setpoint is 32767. -/
def machineO : Machine := { boot blankRom with State := 1, TimeSPoint := 32767 }

/-- State after one poll of the button on pin `p`. -/
def pollNext (env : Env) (p : Nat) (m : Machine) : Machine := (button env p m).2

/-- The value in `lastpush` was read from the clock at a reading no earlier than
reading `c0`. -/
def StampedSince (env : Env) (c0 : Nat) (s : Machine) : Prop :=
  ∃ k, c0 ≤ k ∧ k < s.nClock ∧ s.lastpush = env.clock k % 4294967296

/-- The button on pin `Chrome` is sampled released, pressed, pressed, released,
pressed at the successive reads; the clock advances by 300 ms from one reading
to the next. -/
def envK : Env :=
  { envA with pin := fun _ k => decide (k = 0 ∨ k = 3) }

/-- Both buttons are held down; the clock reads 1000, 1000 and then 1021 ms. -/
def envX1 : Env :=
  { sensor := fun _ => 0
    clock := fun k => if k ≤ 1 then 1000 else 1021
    pin := fun _ _ => false }

/-- As `envX1`, but the chrome button is released. -/
def envX2 : Env :=
  { envX1 with pin := fun p _ => decide (p = Chrome) }

/-- A machine in stand-by that saw the button released at the last poll. -/
def machineX : Machine := { boot blankRom with prevBut := 1 }

/-- The bridge reads a pressure of 510 hPa above its rest value 0. -/
def envN : Env :=
  { sensor := fun _ => 20290 * 510
    clock := fun k => 1000 + 300 * k
    pin := fun _ _ => true }

/-- A machine with a vacuum setpoint of 405 hPa whose cumulative error is 101. -/
def machineR : Machine := { boot blankRom with VacSPoint := 405, CumDif := 101 }

/-- A machine with a vacuum setpoint of 100 hPa and a regulator at rest. -/
def machineN : Machine := { boot blankRom with VacSPoint := 100 }

/-- The machine `machineA` with an integrator close to the end of its range. -/
def machineW : Machine := { machineA with CumDif := 32700 }

/-- A machine in state 3 (choice of sides) with the two-sided exposure
selected. -/
def machineQ : Machine := { machineA with State := 3, dblSide := 1 }

/-- The chrome button is sampled released at the first two polls and pressed
at the third; the polls start at 50, 100 and 110 ms. -/
def envW : Env :=
  { sensor := fun _ => 0
    clock := fun k => if k ≤ 1 then 50 else if k ≤ 3 then 100 else 110
    pin := fun _ k => decide (k ≤ 1) }

/-- Sum of the errors left in `PrevDif` by `n` successive calls of the
regulator, `f` taking the machine through one call. -/
def errSum (f : Machine → Machine) : Nat → Machine → Int
  | 0, _ => 0
  | n + 1, m => (f m).PrevDif + errSum f n (f m)

/-- The encoder button is held down and the chrome button is released; every
reading of the clock returns 5000 ms. -/
def envZ : Env :=
  { sensor := fun _ => 0
    clock := fun _ => 5000
    pin := fun p _ => decide (p = Chrome) }

/-! ## Arithmetic of the machine integers -/

theorem wrap16_range (x : Int) : -32768 ≤ wrap16 x ∧ wrap16 x ≤ 32767 := by
  unfold wrap16; omega

theorem wrap16_of_range {x : Int} (h : -32768 ≤ x ∧ x ≤ 32767) : wrap16 x = x := by
  unfold wrap16; omega

theorem land_255 (v : Int) : Int.land v 255 = v % 256 := by
  cases v with
  | ofNat n =>
    show ((n &&& 255 : Nat) : Int) = _
    have h := Nat.and_pow_two_sub_one_eq_mod n 8
    norm_num at h
    rw [h]; rfl
  | negSucc n =>
    show ((Nat.ldiff 255 n : Nat) : Int) = _
    have h : Nat.ldiff 255 n = 2 ^ 8 - (n % 2 ^ 8 + 1) := by
      apply Nat.eq_of_testBit_eq
      intro i
      rw [Nat.testBit_ldiff, Nat.testBit_two_pow_sub_succ (Nat.mod_lt _ (by norm_num)),
        Nat.testBit_mod_two_pow]
      have h255 : (255 : Nat) = 2 ^ 8 - 1 := by norm_num
      rw [h255, Nat.testBit_two_pow_sub_one]
      by_cases hi : i < 8 <;> simp [hi]
    rw [h, Int.negSucc_emod _ (by norm_num)]
    have := Nat.mod_lt n (show 0 < 2 ^ 8 by norm_num)
    omega

theorem shiftRight_8 (v : Int) : v >>> (8 : Nat) = v / 256 := by
  rw [Int.shiftRight_eq_div_pow]; norm_num

theorem toU8_val (x : Int) : ((toU8 x).val : Int) = x % 256 := by
  simp only [toU8]
  omega

/-! ## Persistent parameter store -/

theorem commitParams_eeprom (m : Machine) :
    (commitParams m).eeprom 11 = toU8 (m.VacSPoint % 256) ∧
    (commitParams m).eeprom 12 = toU8 (m.VacSPoint / 256) ∧
    (commitParams m).eeprom 13 = toU8 (m.TimeSPoint % 256) ∧
    (commitParams m).eeprom 14 = toU8 (m.TimeSPoint / 256) := by
  simp [commitParams, EEPROM_write, Function.update, land_255, shiftRight_8]

theorem load_commit (m : Machine) :
    (loadParams (commitParams m)).VacSPoint = wrap16 m.VacSPoint ∧
    (loadParams (commitParams m)).TimeSPoint = wrap16 m.TimeSPoint := by
  simp only [loadParams, commitParams, EEPROM_read, EEPROM_write, Function.update,
    land_255, shiftRight_8]
  simp [wrap16, toU8_val]
  constructor <;> omega

theorem commit_load_eeprom (m : Machine) :
    (commitParams (loadParams m)).eeprom = m.eeprom := by
  funext a
  have h11 := (m.eeprom 11).isLt
  have h12 := (m.eeprom 12).isLt
  have h13 := (m.eeprom 13).isLt
  have h14 := (m.eeprom 14).isLt
  simp only [loadParams, commitParams, EEPROM_read, EEPROM_write, Function.update,
    land_255, shiftRight_8]
  by_cases e14 : a = 14
  · subst e14; simp; apply Fin.ext; apply Int.ofNat_inj.mp; rw [toU8_val]; simp [wrap16]; omega
  by_cases e13 : a = 13
  · subst e13; simp; apply Fin.ext; apply Int.ofNat_inj.mp; rw [toU8_val]; simp [wrap16]; omega
  by_cases e12 : a = 12
  · subst e12; simp; apply Fin.ext; apply Int.ofNat_inj.mp; rw [toU8_val]; simp [wrap16]; omega
  by_cases e11 : a = 11
  · subst e11; simp; apply Fin.ext; apply Int.ofNat_inj.mp; rw [toU8_val]; simp [wrap16]; omega
  simp [e14, e13, e12, e11]

theorem loadParams_of_eeprom (m0 m1 : Machine)
    (h : ∀ a, 11 ≤ a → a ≤ 14 → m0.eeprom a = m1.eeprom a) :
    (loadParams m0).VacSPoint = (loadParams m1).VacSPoint ∧
    (loadParams m0).TimeSPoint = (loadParams m1).TimeSPoint := by
  simp only [loadParams, EEPROM_read]
  rw [h 11 (by omega) (by omega), h 12 (by omega) (by omega), h 13 (by omega) (by omega),
    h 14 (by omega) (by omega)]
  exact ⟨rfl, rfl⟩

theorem setup_params (env : Env) (m : Machine) :
    (setup env m).VacSPoint = (loadParams m).VacSPoint ∧
    (setup env m).TimeSPoint = (loadParams m).TimeSPoint ∧
    (setup env m).eeprom = m.eeprom := by
  refine ⟨?_, ?_, ?_⟩ <;> simp only [setup, read_average, loadParams]

/-- C1: for all 16-bit setpoints, negative ones included, `commitParams` stores
the low byte of each at offsets 11 and 13 and the high byte at offsets 12 and
14, and `loadParams` then returns both setpoints unchanged.  The setpoints come
back from the four bytes alone: `loadParams` returns them in every machine
`m0` whose EEPROM holds these bytes at offsets 11 to 14, whatever its own
setpoints were, and so does `setup` after a reset with the EEPROM as the
commit left it. -/
theorem C1_load_after_commit (m m0 : Machine) (env : Env)
    (hv : -32768 ≤ m.VacSPoint ∧ m.VacSPoint ≤ 32767)
    (ht : -32768 ≤ m.TimeSPoint ∧ m.TimeSPoint ≤ 32767)
    (hrom : ∀ a, 11 ≤ a → a ≤ 14 → m0.eeprom a = (commitParams m).eeprom a) :
    ((commitParams m).eeprom 11 = toU8 (m.VacSPoint % 256) ∧
      (commitParams m).eeprom 12 = toU8 (m.VacSPoint / 256) ∧
      (commitParams m).eeprom 13 = toU8 (m.TimeSPoint % 256) ∧
      (commitParams m).eeprom 14 = toU8 (m.TimeSPoint / 256)) ∧
    ((loadParams (commitParams m)).VacSPoint = m.VacSPoint ∧
      (loadParams (commitParams m)).TimeSPoint = m.TimeSPoint) ∧
    ((loadParams m0).VacSPoint = m.VacSPoint ∧ (loadParams m0).TimeSPoint = m.TimeSPoint) ∧
    ((setup env (boot (commitParams m).eeprom)).VacSPoint = m.VacSPoint ∧
      (setup env (boot (commitParams m).eeprom)).TimeSPoint = m.TimeSPoint) := by
  have hV : (loadParams (commitParams m)).VacSPoint = m.VacSPoint := by
    rw [(load_commit m).1, wrap16_of_range hv]
  have hT : (loadParams (commitParams m)).TimeSPoint = m.TimeSPoint := by
    rw [(load_commit m).2, wrap16_of_range ht]
  have h0 := loadParams_of_eeprom m0 (commitParams m) hrom
  have hb := loadParams_of_eeprom (boot (commitParams m).eeprom) (commitParams m)
    (fun _ _ _ => rfl)
  have hs := setup_params env (boot (commitParams m).eeprom)
  exact ⟨commitParams_eeprom m, ⟨hV, hT⟩, ⟨h0.1.trans hV, h0.2.trans hT⟩,
    ⟨(hs.1.trans hb.1).trans hV, (hs.2.1.trans hb.2).trans hT⟩⟩

theorem C1_load_after_commit_witness :
    ((-32768 : Int) ≤ -300 ∧ (-300 : Int) ≤ 32767) ∧
    ((boot (commitParams sampleParams).eeprom).VacSPoint = 0 ∧
      (boot (commitParams sampleParams).eeprom).TimeSPoint = 0) ∧
    ((commitParams sampleParams).eeprom 11 = toU8 ((-300) % 256) ∧
      (commitParams sampleParams).eeprom 12 = toU8 ((-300) / 256) ∧
      (commitParams sampleParams).eeprom 13 = toU8 (32767 % 256) ∧
      (commitParams sampleParams).eeprom 14 = toU8 (32767 / 256)) ∧
    ((loadParams (commitParams sampleParams)).VacSPoint = -300 ∧
      (loadParams (commitParams sampleParams)).TimeSPoint = 32767) ∧
    ((loadParams (boot (commitParams sampleParams).eeprom)).VacSPoint = -300 ∧
      (loadParams (boot (commitParams sampleParams).eeprom)).TimeSPoint = 32767) ∧
    ((setup envA (boot (commitParams sampleParams).eeprom)).VacSPoint = -300 ∧
      (setup envA (boot (commitParams sampleParams).eeprom)).TimeSPoint = 32767) :=
  ⟨by decide, ⟨rfl, rfl⟩,
    C1_load_after_commit sampleParams (boot (commitParams sampleParams).eeprom) envA
      (by decide) (by decide) (fun _ _ _ => rfl)⟩

/-- C2: whatever the EEPROM holds, loading the setpoints and committing them
leaves every byte of the EEPROM as it was, and doing so a second time changes
nothing in the machine. -/
theorem C2_commit_after_load (m : Machine) :
    (commitParams (loadParams m)).eeprom = m.eeprom ∧
    commitParams (loadParams (commitParams (loadParams m))) = commitParams (loadParams m) := by
  have h := commit_load_eeprom m
  refine ⟨h, ?_⟩
  have h2 := commit_load_eeprom (commitParams (loadParams m))
  apply Machine.ext
  case eeprom => rw [h2]
  case VacSPoint =>
    show wrap16 ((((commitParams (loadParams m)).eeprom 11).val : Int) +
      256 * (((commitParams (loadParams m)).eeprom 12).val : Int)) = _
    rw [h]; rfl
  case TimeSPoint =>
    show wrap16 ((((commitParams (loadParams m)).eeprom 13).val : Int) +
      256 * (((commitParams (loadParams m)).eeprom 14).val : Int)) = _
    rw [h]; rfl
  all_goals simp only [commitParams, loadParams, EEPROM_write]

/-! ## Vacuum regulator -/

/-! ### Rounding -/

theorem bitLength_lt (fuel : Nat) : ∀ n : Nat, n < 2 ^ fuel → n < 2 ^ bitLength fuel n := by
  induction fuel with
  | zero => intro n h; simp at h; subst h; simp [bitLength]
  | succ f ih =>
    intro n h
    simp only [bitLength]
    split_ifs with h0
    · subst h0; simp
    · have h2 : n / 2 < 2 ^ f := by
        rw [pow_succ] at h; omega
      have := ih (n / 2) h2
      rw [pow_succ]; omega

theorem bitLength_le (fuel : Nat) : ∀ n : Nat, n ≠ 0 → 2 ^ bitLength fuel n ≤ 2 * n := by
  induction fuel with
  | zero => intro n h; simp only [bitLength]; omega
  | succ f ih =>
    intro n h
    simp only [bitLength]
    rw [if_neg h, pow_succ]
    by_cases h1 : n / 2 = 0
    · have : bitLength f (n / 2) = 0 := by
        rw [h1]; cases f <;> simp [bitLength]
      rw [this]; omega
    · have := ih (n / 2) h1
      omega

theorem bitLength_zero (fuel : Nat) : bitLength fuel 0 = 0 := by
  cases fuel <;> simp [bitLength]

theorem roundShift_err (n sh : Nat) :
    2 * (roundShift n sh * 2 ^ sh) ≤ 2 * n + 2 ^ sh ∧
    2 * n ≤ 2 * (roundShift n sh * 2 ^ sh) + 2 ^ sh := by
  have hp : 0 < 2 ^ sh := Nat.pow_pos (by norm_num)
  have hd := Nat.div_add_mod n (2 ^ sh)
  have hr := Nat.mod_lt n hp
  simp only [roundShift]
  generalize n / 2 ^ sh = q at *
  generalize n % 2 ^ sh = r at *
  generalize 2 ^ sh = P at *
  subst hd
  split_ifs <;> constructor <;> nlinarith

theorem roundShift_zero (sh : Nat) : roundShift 0 sh = 0 := by
  simp [roundShift]


theorem Float32.toRat_man_eq (x : Float32) :
    x.toRat = (x.man.sign : ℚ) * (x.man.natAbs : ℚ) * (2 : ℚ) ^ x.exp := by
  have h : (x.man : ℚ) = ((x.man.sign * (x.man.natAbs : Int) : Int) : ℚ) := by
    rw [Int.sign_mul_natAbs]
  simp only [Float32.toRat]
  rw [h, Int.cast_mul, Int.cast_natCast]

theorem Float32.abs_toRat (x : Float32) :
    |x.toRat| = (x.man.natAbs : ℚ) * (2 : ℚ) ^ x.exp := by
  simp only [Float32.toRat]
  rw [abs_mul, abs_of_pos (zpow_pos (by norm_num : (0 : ℚ) < 2) x.exp), Nat.cast_natAbs,
    Int.cast_abs]

theorem abs_sign_le_one (z : Int) : |(z.sign : ℚ)| ≤ 1 := by
  rcases lt_trichotomy z 0 with h | h | h
  · rw [Int.sign_eq_neg_one_of_neg h]; simp
  · subst h; simp
  · rw [Int.sign_eq_one_of_pos h]; simp

/-- Rounding moves a value below `2 ^ k` in magnitude by at most half a unit in
the last place of that range, `2 ^ (k - 25)`. -/
theorem Float32.round_err (x : Float32) (k : Int) (hk : -125 ≤ k)
    (h : |x.toRat| < (2 : ℚ) ^ k) :
    |(Float32.round x).toRat - x.toRat| ≤ (2 : ℚ) ^ (k - 25) := by
  have h2 : (0 : ℚ) < 2 := by norm_num
  simp only [Float32.round]
  split_ifs with ht
  · simp only [sub_self, abs_zero]
    exact le_of_lt (zpow_pos h2 _)
  · push_neg at ht
    -- the exponent of the result is at most `k - 24`
    have hL : x.exp + (bitLength x.man.natAbs x.man.natAbs : Int) ≤ k ∨ x.man.natAbs = 0 := by
      by_cases h0 : x.man.natAbs = 0
      · exact Or.inr h0
      · left
        have hb := bitLength_le x.man.natAbs x.man.natAbs h0
        rw [Float32.abs_toRat] at h
        have hb2 : ((2 : ℚ) ^ (bitLength x.man.natAbs x.man.natAbs : Int)) ≤
            2 * (x.man.natAbs : ℚ) := by
          rw [zpow_natCast]
          exact_mod_cast hb
        have hpos := zpow_pos h2 x.exp
        have h3 : (2 : ℚ) ^ (x.exp + (bitLength x.man.natAbs x.man.natAbs : Int)) <
            (2 : ℚ) ^ (k + 1) := by
          rw [zpow_add₀ (by norm_num : (2 : ℚ) ≠ 0), zpow_add₀ (by norm_num : (2 : ℚ) ≠ 0),
            zpow_one]
          calc (2 : ℚ) ^ x.exp * 2 ^ (bitLength x.man.natAbs x.man.natAbs : Int)
              ≤ 2 ^ x.exp * (2 * (x.man.natAbs : ℚ)) :=
                mul_le_mul_of_nonneg_left hb2 (le_of_lt hpos)
            _ = 2 * ((x.man.natAbs : ℚ) * 2 ^ x.exp) := by ring
            _ < 2 * 2 ^ k := by linarith
            _ = 2 ^ k * 2 := by ring
        have h4 := (zpow_lt_zpow_iff_right₀ (by norm_num : (1 : ℚ) < 2)).mp h3
        omega
    generalize ht' : max (x.exp + (bitLength x.man.natAbs x.man.natAbs : Int) - 24) (-149) = t
      at ht ⊢
    have htk : t ≤ k - 24 := by
      rcases hL with hL | h0
      · rw [← ht']; exact max_le (by omega) (by omega)
      · rw [h0, bitLength_zero] at ht'
        rw [← ht']; apply max_le
        · have : x.exp < -149 := by
            by_contra hc
            push_neg at hc
            rw [← ht'] at ht
            have := max_le (show x.exp + ((0 : Nat) : Int) - 24 ≤ x.exp by simp) hc
            omega
          simp only [Nat.cast_zero]
          omega
        · omega
    have hsh : (((t - x.exp).toNat : Nat) : Int) = t - x.exp := Int.toNat_of_nonneg (by omega)
    generalize (t - x.exp).toNat = sh at hsh ⊢
    have hte : t = x.exp + (sh : Int) := by omega
    obtain ⟨e1, e2⟩ := roundShift_err x.man.natAbs sh
    have e1q : (2 : ℚ) * ((roundShift x.man.natAbs sh : ℚ) * 2 ^ sh) ≤
        2 * (x.man.natAbs : ℚ) + 2 ^ sh := by exact_mod_cast e1
    have e2q : (2 : ℚ) * (x.man.natAbs : ℚ) ≤
        2 * ((roundShift x.man.natAbs sh : ℚ) * 2 ^ sh) + 2 ^ sh := by exact_mod_cast e2
    have hdiff : (Float32.toRat
          { man := x.man.sign * ((roundShift x.man.natAbs sh : Nat) : Int), exp := t }) - x.toRat =
        (x.man.sign : ℚ) * ((2 : ℚ) ^ x.exp *
          ((roundShift x.man.natAbs sh : ℚ) * 2 ^ sh - (x.man.natAbs : ℚ))) := by
      rw [Float32.toRat_man_eq x]
      simp only [Float32.toRat]
      rw [hte, zpow_add₀ (by norm_num : (2 : ℚ) ≠ 0), zpow_natCast]
      push_cast
      ring
    rw [hdiff, abs_mul, abs_mul, abs_of_pos (zpow_pos h2 x.exp)]
    have hinner : |(roundShift x.man.natAbs sh : ℚ) * 2 ^ sh - (x.man.natAbs : ℚ)| ≤
        (2 : ℚ) ^ sh / 2 := by
      rw [abs_le]; constructor <;> linarith
    have hpow : (2 : ℚ) ^ x.exp * ((2 : ℚ) ^ sh / 2) = (2 : ℚ) ^ (t - 1) := by
      rw [hte, add_sub_assoc, zpow_add₀ (by norm_num : (2 : ℚ) ≠ 0),
        zpow_sub₀ (by norm_num : (2 : ℚ) ≠ 0), zpow_natCast, zpow_one]
    calc |(x.man.sign : ℚ)| * ((2 : ℚ) ^ x.exp *
          |(roundShift x.man.natAbs sh : ℚ) * 2 ^ sh - (x.man.natAbs : ℚ)|)
        ≤ 1 * ((2 : ℚ) ^ x.exp * ((2 : ℚ) ^ sh / 2)) := by
          apply mul_le_mul (abs_sign_le_one _) _ (by positivity) (by norm_num)
          exact mul_le_mul_of_nonneg_left hinner (le_of_lt (zpow_pos h2 _))
      _ = (2 : ℚ) ^ (t - 1) := by rw [one_mul, hpow]
      _ ≤ (2 : ℚ) ^ (k - 25) := zpow_le_zpow_right₀ (by norm_num) (by omega)


theorem bitLength_self_lt (n : Nat) : n < 2 ^ bitLength n n :=
  bitLength_lt n n (Nat.lt_two_pow n)

theorem roundShift_le (n sh : Nat) : roundShift n sh ≤ n / 2 ^ sh + 1 := by
  simp only [roundShift]
  split_ifs <;> omega

/-- The result of rounding is a value of the format: its significand has at
most 24 binary digits, `2 ^ 24` standing for the first value of the next
binade, and its last place is no smaller than `2 ^ (-149)`. -/
theorem Float32.round_fits (x : Float32) :
    (Float32.round x).man.natAbs ≤ 2 ^ 24 ∧ -149 ≤ (Float32.round x).exp := by
  have hlt := bitLength_self_lt x.man.natAbs
  simp only [Float32.round]
  generalize bitLength x.man.natAbs x.man.natAbs = L at hlt ⊢
  split_ifs with ht
  · have h1 : x.exp + (L : Int) - 24 ≤ x.exp := le_trans (le_max_left _ _) ht
    have h2 : (-149 : Int) ≤ x.exp := le_trans (le_max_right _ _) ht
    have hL : L ≤ 24 := by omega
    have : 2 ^ L ≤ 2 ^ 24 := Nat.pow_le_pow_right (by norm_num) hL
    exact ⟨by omega, h2⟩
  · push_neg at ht
    refine ⟨?_, le_max_right _ _⟩
    generalize ht' : max (x.exp + (L : Int) - 24) (-149) = t at ht ⊢
    have h1 : x.exp + (L : Int) - 24 ≤ t := by rw [← ht']; exact le_max_left _ _
    have hsh : (((t - x.exp).toNat : Nat) : Int) = t - x.exp := Int.toNat_of_nonneg (by omega)
    generalize (t - x.exp).toNat = sh at hsh ⊢
    have hL : L ≤ sh + 24 := by omega
    have hpow : 2 ^ L ≤ 2 ^ (sh + 24) := Nat.pow_le_pow_right (by norm_num) hL
    have hq : x.man.natAbs / 2 ^ sh < 2 ^ 24 := by
      apply Nat.div_lt_of_lt_mul
      rw [← pow_add]
      omega
    have hr := roundShift_le x.man.natAbs sh
    show (x.man.sign * ((roundShift x.man.natAbs sh : Nat) : Int)).natAbs ≤ 2 ^ 24
    rw [Int.natAbs_mul, Int.natAbs_sign, Int.natAbs_ofNat]
    split_ifs
    · omega
    · omega

theorem Float32.round_man_zero (x : Float32) (h : x.man = 0) : (Float32.round x).toRat = 0 := by
  simp only [Float32.round]
  split_ifs
  · simp [Float32.toRat, h]
  · simp [Float32.toRat, h, roundShift_zero]

theorem Float32.mul_err (x y : Float32) (k : Int) (hk : -125 ≤ k)
    (h : |x.toRat * y.toRat| < (2 : ℚ) ^ k) :
    |(Float32.mul x y).toRat - x.toRat * y.toRat| ≤ (2 : ℚ) ^ (k - 25) := by
  have e : (Float32.toRat { man := x.man * y.man, exp := x.exp + y.exp }) =
      x.toRat * y.toRat := by
    simp only [Float32.toRat]
    rw [zpow_add₀ (by norm_num : (2 : ℚ) ≠ 0)]
    push_cast
    ring
  rw [← e] at h ⊢
  exact Float32.round_err _ k hk h

theorem Float32.toRat_align (x y : Float32) :
    (Float32.toRat
      { man := x.man * 2 ^ (x.exp - min x.exp y.exp).toNat +
          y.man * 2 ^ (y.exp - min x.exp y.exp).toNat,
        exp := min x.exp y.exp }) = x.toRat + y.toRat := by
  have h2 : (2 : ℚ) ≠ 0 := by norm_num
  have hx : (((x.exp - min x.exp y.exp).toNat : Nat) : Int) = x.exp - min x.exp y.exp :=
    Int.toNat_of_nonneg (by have := min_le_left x.exp y.exp; omega)
  have hy : (((y.exp - min x.exp y.exp).toNat : Nat) : Int) = y.exp - min x.exp y.exp :=
    Int.toNat_of_nonneg (by have := min_le_right x.exp y.exp; omega)
  have ex : (2 : ℚ) ^ x.exp =
      2 ^ (x.exp - min x.exp y.exp).toNat * 2 ^ (min x.exp y.exp) := by
    rw [← zpow_natCast, hx, ← zpow_add₀ h2]; congr 1; ring
  have ey : (2 : ℚ) ^ y.exp =
      2 ^ (y.exp - min x.exp y.exp).toNat * 2 ^ (min x.exp y.exp) := by
    rw [← zpow_natCast, hy, ← zpow_add₀ h2]; congr 1; ring
  simp only [Float32.toRat]
  rw [ex, ey]
  push_cast
  ring

theorem Float32.add_err (x y : Float32) (k : Int) (hk : -125 ≤ k)
    (h : |x.toRat + y.toRat| < (2 : ℚ) ^ k) :
    |(Float32.add x y).toRat - (x.toRat + y.toRat)| ≤ (2 : ℚ) ^ (k - 25) := by
  rw [← Float32.toRat_align] at h ⊢
  exact Float32.round_err _ k hk h

theorem Float32.mul_man_zero (x y : Float32) (h : x.man = 0) : (Float32.mul x y).toRat = 0 :=
  Float32.round_man_zero _ (by simp [h])

/-- An integer of less than 24 binary digits is converted without rounding. -/
theorem Float32.ofInt_exact (n : Int) (h : n.natAbs < 2 ^ 24) :
    Float32.ofInt n = { man := n, exp := 0 } := by
  have hL : bitLength n.natAbs n.natAbs ≤ 24 := by
    by_cases h0 : n.natAbs = 0
    · rw [h0, bitLength_zero]; omega
    · have hb := bitLength_le n.natAbs n.natAbs h0
      have h3 : 2 ^ bitLength n.natAbs n.natAbs < 2 ^ 25 := by omega
      have := (Nat.pow_lt_pow_iff_right (by norm_num : 1 < 2)).mp h3
      omega
  simp only [Float32.ofInt, Float32.round]
  rw [if_pos]
  apply max_le <;> omega

theorem Float32.toRat_ofInt (n : Int) (h : n.natAbs < 2 ^ 24) :
    (Float32.ofInt n).toRat = n := by
  rw [Float32.ofInt_exact n h]
  simp [Float32.toRat]

theorem trunc_div (a : Int) (D : Nat) (hD : 0 < D) :
    (if 0 ≤ (a : ℚ) / D then ⌊(a : ℚ) / D⌋ else ⌈(a : ℚ) / D⌉) = Int.tdiv a D := by
  have hDq : (0 : ℚ) < D := by exact_mod_cast hD
  split_ifs with h
  · have ha : 0 ≤ a := by
      by_contra hneg
      push_neg at hneg
      have : (a : ℚ) / D < 0 := div_neg_of_neg_of_pos (by exact_mod_cast hneg) hDq
      linarith
    rw [Int.tdiv_eq_ediv ha (by omega)]
    exact Rat.floor_intCast_div_natCast a D
  · push_neg at h
    have ha : a < 0 := by
      by_contra hneg
      push_neg at hneg
      have : (0 : ℚ) ≤ (a : ℚ) / D := div_nonneg (by exact_mod_cast hneg) (le_of_lt hDq)
      linarith
    have hfl := Rat.floor_intCast_div_natCast (-a) D
    have hneg : Int.tdiv a D = -((-a) / D) := by
      have h1 := Int.neg_tdiv a D
      rw [Int.tdiv_eq_ediv (by omega) (by omega)] at h1
      omega
    have hc : ⌈(a : ℚ) / D⌉ = -⌊((-a : Int) : ℚ) / (D : ℚ)⌋ := by
      have e : ((-a : Int) : ℚ) / (D : ℚ) = -((a : ℚ) / D) := by
        push_cast
        ring
      rw [e, Int.floor_neg, neg_neg]
    rw [hneg, hc, hfl]

/-- The conversion of line 169 discards the fraction of the value. -/
theorem floatToInt_eq (x : Float32) :
    floatToInt x = if 0 ≤ x.toRat then ⌊x.toRat⌋ else ⌈x.toRat⌉ := by
  simp only [floatToInt]
  split_ifs with he h0 h0
  · have : x.toRat = ((x.man * 2 ^ x.exp.toNat : Int) : ℚ) := by
      simp only [Float32.toRat]
      push_cast
      rw [← zpow_natCast, Int.toNat_of_nonneg he]
    rw [this, Int.floor_intCast]
  · have : x.toRat = ((x.man * 2 ^ x.exp.toNat : Int) : ℚ) := by
      simp only [Float32.toRat]
      push_cast
      rw [← zpow_natCast, Int.toNat_of_nonneg he]
    rw [this, Int.ceil_intCast]
  all_goals
    have hn : (((-x.exp).toNat : Nat) : Int) = -x.exp := Int.toNat_of_nonneg (by omega)
    have e : x.toRat = (x.man : ℚ) / ((2 ^ (-x.exp).toNat : Nat) : ℚ) := by
      simp only [Float32.toRat]
      push_cast
      rw [← zpow_natCast, hn, zpow_neg, div_eq_mul_inv, inv_inv]
    have hp : 0 < 2 ^ (-x.exp).toNat := Nat.pow_pos (by norm_num)
    have ht := trunc_div x.man (2 ^ (-x.exp).toNat) hp
    rw [← e] at ht
    first
      | rw [if_pos h0] at ht
      | rw [if_neg h0] at ht
    rw [ht]
    push_cast
    rfl

/-! ### The controller output -/

theorem Kp_toRat : Kp.toRat = 8724152 / 16777216 := by
  norm_num [Kp, Float32.toRat]

theorem Ki_toRat : Ki.toRat = 13421773 / 134217728 := by
  norm_num [Ki, Float32.toRat]

/-- The constants are the values of type `float` nearest to the decimal
fractions written in the source: the distance is below half a unit in the last
place, which is `2 ^ (-25)` for 0.52 and `2 ^ (-28)` for 0.1. -/
theorem Kp_Ki_nearest :
    (8388608 ≤ Kp.man ∧ Kp.man < 16777216 ∧ |Kp.toRat - 52 / 100| < 1 / 2 ^ 25) ∧
    (8388608 ≤ Ki.man ∧ Ki.man < 16777216 ∧ |Ki.toRat - 100 / 1000| < 1 / 2 ^ 28) ∧
    Kd.toRat = 0 := by
  refine ⟨⟨by decide, by decide, ?_⟩, ⟨by decide, by decide, ?_⟩, ?_⟩
  · rw [Kp_toRat, abs_lt]; constructor <;> norm_num
  · rw [Ki_toRat, abs_lt]; constructor <;> norm_num
  · simp [Kd, Float32.toRat]

/-- For 16-bit arguments the value computed in line 169 differs from the sum
with the decimal constants by less than 1/200. -/
theorem pid_err (d c e : Int) (hd : -32768 ≤ d ∧ d ≤ 32767) (hc : -32768 ≤ c ∧ c ≤ 32767) :
    |(pid d c e).toRat - (50 + 52 / 100 * (d : ℚ) + 1 / 10 * (c : ℚ))| ≤ 1 / 200 := by
  have hdq : (-32768 : ℚ) ≤ d ∧ (d : ℚ) ≤ 32767 := by exact_mod_cast hd
  have hcq : (-32768 : ℚ) ≤ c ∧ (c : ℚ) ≤ 32767 := by exact_mod_cast hc
  have hD : (Float32.ofInt d).toRat = d := Float32.toRat_ofInt d (by omega)
  have hC : (Float32.ofInt c).toRat = c := Float32.toRat_ofInt c (by omega)
  have h50 : (Float32.ofInt 50).toRat = 50 := by
    have := Float32.toRat_ofInt 50 (by decide)
    simpa using this
  -- Kp * Dif
  have e1 := Float32.mul_err Kp (Float32.ofInt d) 15 (by norm_num)
    (by rw [hD, Kp_toRat, abs_lt]; constructor <;> norm_num <;> linarith)
  rw [hD, Kp_toRat] at e1
  -- 50 + Kp * Dif
  have e2 := Float32.add_err (Float32.ofInt 50) (Float32.mul Kp (Float32.ofInt d)) 15
    (by norm_num)
    (by
      rw [h50, abs_lt]
      rw [abs_le] at e1
      norm_num at e1 ⊢
      constructor <;> linarith)
  rw [h50] at e2
  -- Ki * CumDif
  have e3 := Float32.mul_err Ki (Float32.ofInt c) 12 (by norm_num)
    (by rw [hC, Ki_toRat, abs_lt]; constructor <;> norm_num <;> linarith)
  rw [hC, Ki_toRat] at e3
  -- (50 + Kp * Dif) + Ki * CumDif
  have e4 := Float32.add_err
    (Float32.add (Float32.ofInt 50) (Float32.mul Kp (Float32.ofInt d)))
    (Float32.mul Ki (Float32.ofInt c)) 15 (by norm_num)
    (by
      rw [abs_lt]
      rw [abs_le] at e1 e2 e3
      norm_num at e1 e2 e3 ⊢
      constructor <;> linarith)
  -- Kd * MomDif
  have h0 : (Float32.mul Kd (Float32.ofInt e)).toRat = 0 := Float32.mul_man_zero _ _ rfl
  have e5 := Float32.add_err
    (Float32.add (Float32.add (Float32.ofInt 50) (Float32.mul Kp (Float32.ofInt d)))
      (Float32.mul Ki (Float32.ofInt c)))
    (Float32.mul Kd (Float32.ofInt e)) 15 (by norm_num)
    (by
      rw [h0, abs_lt]
      rw [abs_le] at e1 e2 e3 e4
      norm_num at e1 e2 e3 e4 ⊢
      constructor <;> linarith)
  rw [h0] at e5
  rw [abs_le] at e1 e2 e3 e4 e5 ⊢
  simp only [pid]
  norm_num at e1 e2 e3 e4 e5 ⊢
  constructor <;> linarith

theorem floatToInt_ge {x : Float32} {z : Int} (hz : 0 ≤ z) (h : (z : ℚ) ≤ x.toRat) :
    z ≤ floatToInt x := by
  have hq : (0 : ℚ) ≤ x.toRat := le_trans (by exact_mod_cast hz) h
  rw [floatToInt_eq, if_pos hq]
  exact Int.le_floor.mpr h

theorem floatToInt_bounds {x : Float32} {z : Int} (hz : 0 ≤ z)
    (h : -(z : ℚ) ≤ x.toRat ∧ x.toRat ≤ z) : -z ≤ floatToInt x ∧ floatToInt x ≤ z := by
  rw [floatToInt_eq]
  split_ifs with h0
  · constructor
    · have : (0 : Int) ≤ ⌊x.toRat⌋ := Int.floor_nonneg.mpr h0
      omega
    · have := Int.floor_le x.toRat
      have : ((⌊x.toRat⌋ : Int) : ℚ) ≤ z := le_trans this h.2
      exact_mod_cast this
  · push_neg at h0
    constructor
    · have := Int.le_ceil x.toRat
      have : ((-z : Int) : ℚ) ≤ ⌈x.toRat⌉ := by
        push_cast
        exact le_trans h.1 this
      exact_mod_cast this
    · have : ⌈x.toRat⌉ ≤ 0 := Int.ceil_le.mpr (by simpa using le_of_lt h0)
      omega

/-- The value converted to `int` in line 169 always fits a 16-bit `int`, so
the conversion is defined and loses nothing but the fraction. -/
theorem floatToInt_pid_range (d c e : Int) :
    -32768 ≤ floatToInt (pid (wrap16 d) (wrap16 c) e) ∧
      floatToInt (pid (wrap16 d) (wrap16 c) e) ≤ 32767 := by
  have hd := wrap16_range d
  have hc := wrap16_range c
  have hdq : (-32768 : ℚ) ≤ (wrap16 d : Int) ∧ ((wrap16 d : Int) : ℚ) ≤ 32767 := by
    exact_mod_cast hd
  have hcq : (-32768 : ℚ) ≤ (wrap16 c : Int) ∧ ((wrap16 c : Int) : ℚ) ≤ 32767 := by
    exact_mod_cast hc
  have herr := pid_err (wrap16 d) (wrap16 c) e hd hc
  rw [abs_le] at herr
  have := @floatToInt_bounds (pid (wrap16 d) (wrap16 c) e) 20400 (by norm_num)
    (by push_cast; constructor <;> linarith)
  omega

theorem vacuum_eq (env : Env) (m : Machine) :
    vacuum env m =
      { m with
        nSensor := m.nSensor + 1
        press := pressOf (wrap32 (env.sensor m.nSensor)) m.zero
        CumDif := wrap16 (m.CumDif +
          wrap16 (m.VacSPoint - pressOf (wrap32 (env.sensor m.nSensor)) m.zero))
        MomDif := wrap16 (wrap16 (m.VacSPoint - pressOf (wrap32 (env.sensor m.nSensor)) m.zero)
          - m.PrevDif)
        PrevDif := wrap16 (m.VacSPoint - pressOf (wrap32 (env.sensor m.nSensor)) m.zero)
        out := m.out ++ [Out.pwmWrite PumpPin
          (Cont (wrap16 (m.VacSPoint - pressOf (wrap32 (env.sensor m.nSensor)) m.zero))
            (wrap16 (m.CumDif +
              wrap16 (m.VacSPoint - pressOf (wrap32 (env.sensor m.nSensor)) m.zero)))
            (wrap16 (wrap16 (m.VacSPoint - pressOf (wrap32 (env.sensor m.nSensor)) m.zero)
              - m.PrevDif)))] } := rfl

theorem vacuum_out (env : Env) (m : Machine) :
    (vacuum env m).out = m.out ++ [Out.pwmWrite PumpPin
      (Cont (vacuum env m).PrevDif (vacuum env m).CumDif (vacuum env m).MomDif)] := rfl

@[simp] theorem vacuum_VacSPoint (env : Env) (m : Machine) :
    (vacuum env m).VacSPoint = m.VacSPoint := rfl
@[simp] theorem vacuum_TimeSPoint (env : Env) (m : Machine) :
    (vacuum env m).TimeSPoint = m.TimeSPoint := rfl
@[simp] theorem vacuum_dblSide (env : Env) (m : Machine) :
    (vacuum env m).dblSide = m.dblSide := rfl
@[simp] theorem vacuum_startms (env : Env) (m : Machine) :
    (vacuum env m).startms = m.startms := rfl
@[simp] theorem vacuum_nClock (env : Env) (m : Machine) :
    (vacuum env m).nClock = m.nClock := rfl
@[simp] theorem vacuum_nSensor (env : Env) (m : Machine) :
    (vacuum env m).nSensor = m.nSensor + 1 := rfl
@[simp] theorem vacuum_lastpush (env : Env) (m : Machine) :
    (vacuum env m).lastpush = m.lastpush := rfl
@[simp] theorem vacuum_prevBut (env : Env) (m : Machine) :
    (vacuum env m).prevBut = m.prevBut := rfl

theorem Cont_le (d c e : Int) : Cont d c e ≤ 255 := by
  simp only [Cont]
  split_ifs with h
  · exact le_refl _
  · exact not_lt.mp h

theorem Cont_of_ge {d c e : Int} (h : (255 : ℚ) ≤ (pid d c e).toRat) : Cont d c e = 255 := by
  have h1 : (255 : Int) ≤ floatToInt (pid d c e) :=
    floatToInt_ge (by norm_num) (by exact_mod_cast h)
  simp only [Cont]
  split_ifs with h2
  · rfl
  · omega

/-- When the sum with the decimal constants exceeds 255, the value computed in
`float` arithmetic is at least 255 and the value written is 255. -/
theorem Cont_of_gt {d c e : Int} (hd : -32768 ≤ d ∧ d ≤ 32767) (hc : -32768 ≤ c ∧ c ≤ 32767)
    (h : (255 : ℚ) < 50 + 52 / 100 * (d : ℚ) + 100 / 1000 * (c : ℚ) + 0 * (e : ℚ)) :
    Cont d c e = 255 := by
  have hint : (25500 : Int) < 5000 + 52 * d + 10 * c := by
    have : ((25500 : Int) : ℚ) < ((5000 + 52 * d + 10 * c : Int) : ℚ) := by
      push_cast
      linarith
    exact_mod_cast this
  have hq : ((25501 : Int) : ℚ) ≤ ((5000 + 52 * d + 10 * c : Int) : ℚ) := by
    exact_mod_cast (show (25501 : Int) ≤ 5000 + 52 * d + 10 * c by omega)
  push_cast at hq
  have herr := pid_err d c e hd hc
  rw [abs_le] at herr
  exact Cont_of_ge (by linarith)

theorem lastPwm_append_pwm (l : List Out) (p : Nat) (v : Int) :
    lastPwm (l ++ [Out.pwmWrite p v]) p = some v := by
  simp [lastPwm, List.foldl_append]

/-- C3: whatever the setpoint, the pressure sample and the regulator state,
`vacuum` makes one write to the pump, its value is at most 255, and it is
exactly 255 whenever the sum 50 + Kp*error + Ki*cumulativeError + Kd*derivative
with Kp = 0.52, Ki = 0.1 and Kd = 0 exceeds 255, and also whenever the value
the sketch computes for that sum in `float` arithmetic is 255 or more; error,
cumulative error and derivative are the values `vacuum` leaves in `PrevDif`,
`CumDif` and `MomDif`. -/
theorem C3_drive_at_most_255 (env : Env) (m : Machine) :
    ∃ v : Int,
      (vacuum env m).out = m.out ++ [Out.pwmWrite PumpPin v] ∧
      lastPwm (vacuum env m).out PumpPin = some v ∧
      v ≤ 255 ∧
      ((255 : ℚ) < 50 + 52 / 100 * ((vacuum env m).PrevDif : ℚ)
          + 100 / 1000 * ((vacuum env m).CumDif : ℚ)
          + 0 * ((vacuum env m).MomDif : ℚ) → v = 255) ∧
      ((255 : ℚ) ≤ (pid (vacuum env m).PrevDif (vacuum env m).CumDif
          (vacuum env m).MomDif).toRat → v = 255) ∧
      (vacuum env m).PrevDif = wrap16 (m.VacSPoint - (vacuum env m).press) ∧
      (vacuum env m).CumDif = wrap16 (m.CumDif + (vacuum env m).PrevDif) ∧
      (vacuum env m).MomDif = wrap16 ((vacuum env m).PrevDif - m.PrevDif) := by
  have hd : -32768 ≤ (vacuum env m).PrevDif ∧ (vacuum env m).PrevDif ≤ 32767 :=
    wrap16_range (m.VacSPoint - (vacuum env m).press)
  have hc : -32768 ≤ (vacuum env m).CumDif ∧ (vacuum env m).CumDif ≤ 32767 :=
    wrap16_range (m.CumDif + (vacuum env m).PrevDif)
  refine ⟨Cont (vacuum env m).PrevDif (vacuum env m).CumDif (vacuum env m).MomDif,
    vacuum_out env m, ?_, Cont_le _ _ _, fun h => Cont_of_gt hd hc h, fun h => Cont_of_ge h,
    rfl, rfl, rfl⟩
  rw [vacuum_out]
  exact lastPwm_append_pwm _ _ _

theorem C3_drive_at_most_255_witness :
    (vacuum envA machineA).PrevDif = 420 ∧ (vacuum envA machineA).CumDif = 420 ∧
    (vacuum envA machineA).MomDif = 420 ∧
    (255 : ℚ) < 50 + 52 / 100 * 420 + 100 / 1000 * 420 + 0 * 420 ∧
    lastPwm (vacuum envA machineA).out PumpPin = some 255 := by
  have hP : (vacuum envA machineA).PrevDif = 420 := by decide
  have hC : (vacuum envA machineA).CumDif = 420 := by decide
  have hM : (vacuum envA machineA).MomDif = 420 := by decide
  have hs : (255 : ℚ) < 50 + 52 / 100 * 420 + 100 / 1000 * 420 + 0 * 420 := by
    norm_num
  obtain ⟨v, -, hlast, -, hclamp, -⟩ := C3_drive_at_most_255 envA machineA
  rw [hP, hC, hM] at hclamp
  rw [hlast, hclamp (by exact_mod_cast hs)]
  exact ⟨hP, hC, hM, hs, rfl⟩

/-! ## Pre-charge -/

theorem iterate_vacuum_VacSPoint (env : Env) (k : Nat) (m : Machine) :
    ((vacuum env)^[k] m).VacSPoint = m.VacSPoint := by
  induction k generalizing m with
  | zero => rfl
  | succ k ih => rw [Function.iterate_succ_apply, ih, vacuum_VacSPoint]

theorem iterate_vacuum_out (env : Env) (k : Nat) (m : Machine) :
    ∃ vs : List Int, vs.length = k ∧
      ((vacuum env)^[k] m).out = m.out ++ vs.map (Out.pwmWrite PumpPin) := by
  induction k generalizing m with
  | zero => exact ⟨[], rfl, by simp⟩
  | succ k ih =>
    obtain ⟨vs, hlen, hout⟩ := ih (vacuum env m)
    rw [Function.iterate_succ_apply, hout, vacuum_out]
    exact ⟨Cont (vacuum env m).PrevDif (vacuum env m).CumDif (vacuum env m).MomDif :: vs,
      by simp [hlen], by simp⟩

theorem pinLevel_append_pwm (l : List Out) (vs : List Int) (q p : Nat) :
    pinLevel (l ++ vs.map (Out.pwmWrite q)) p = pinLevel l p := by
  simp only [pinLevel, List.foldl_append]
  induction vs generalizing l with
  | nil => rfl
  | cons v vs ih => simpa using ih (l ++ [Out.pwmWrite q v])

theorem precharge_exit (env : Env) (n : Nat) : ∀ (m : Machine) (fuel : Nat),
    (∀ k, 1 ≤ k → k ≤ n → ((vacuum env)^[k] m).press < m.VacSPoint) →
    m.VacSPoint ≤ ((vacuum env)^[n + 1] m).press → n < fuel →
    precharge env fuel m = some ((vacuum env)^[n + 1] m) := by
  induction n with
  | zero =>
    intro m fuel _ hreach hfuel
    obtain ⟨f, rfl⟩ : ∃ f, fuel = f + 1 := ⟨fuel - 1, by omega⟩
    simp only [precharge]
    rw [if_neg]
    · rfl
    · simpa using hreach
  | succ n ih =>
    intro m fuel hbelow hreach hfuel
    obtain ⟨f, rfl⟩ : ∃ f, fuel = f + 1 := ⟨fuel - 1, by omega⟩
    simp only [precharge]
    have h1 := hbelow 1 (le_refl _) (by omega)
    rw [if_pos (by simpa using h1)]
    rw [Function.iterate_succ_apply]
    apply ih
    · intro k hk1 hk2
      have := hbelow (k + 1) (by omega) (by omega)
      rw [Function.iterate_succ_apply] at this
      simpa using this
    · rw [Function.iterate_succ_apply] at hreach
      simpa using hreach
    · omega

theorem precharge_blocked (env : Env) (fuel : Nat) : ∀ (m : Machine) (n : Nat),
    (∀ k, 1 ≤ k → k ≤ n → ((vacuum env)^[k] m).press < m.VacSPoint) → fuel ≤ n →
    precharge env fuel m = none := by
  induction fuel with
  | zero => intro m n _ _; rfl
  | succ f ih =>
    intro m n hbelow hfuel
    simp only [precharge]
    have h1 := hbelow 1 (le_refl _) (by omega)
    rw [if_pos (by simpa using h1)]
    apply ih (vacuum env m) (n - 1)
    · intro k hk1 hk2
      have := hbelow (k + 1) (by omega) (by omega)
      rw [Function.iterate_succ_apply] at this
      simpa using this
    · omega

theorem precharge_some (env : Env) (fuel : Nat) : ∀ (m m' : Machine),
    precharge env fuel m = some m' →
    ∃ j, j < fuel ∧ m' = (vacuum env)^[j + 1] m ∧ m.VacSPoint ≤ m'.press ∧
      ∀ k, 1 ≤ k → k ≤ j → ((vacuum env)^[k] m).press < m.VacSPoint := by
  induction fuel with
  | zero => intro m m' h; simp [precharge] at h
  | succ f ih =>
    intro m m' h
    simp only [precharge] at h
    split_ifs at h with hlt
    · obtain ⟨j, hj, hm', hreach, hbelow⟩ := ih _ _ h
      refine ⟨j + 1, by omega, ?_, ?_, ?_⟩
      · rw [hm']; rfl
      · simpa using hreach
      · intro k hk1 hk2
        obtain ⟨i, rfl⟩ : ∃ i, k = i + 1 := ⟨k - 1, by omega⟩
        rw [Function.iterate_succ_apply]
        by_cases hi : i = 0
        · subst hi; simpa using hlt
        · have := hbelow i (by omega) (by omega)
          simpa using this
    · injection h with h
      refine ⟨0, by omega, h.symm, ?_, ?_⟩
      · rw [← h]; simpa using hlt
      · intro k hk1 hk2; omega

theorem lastPwm_exposeStart (env : Env) (p : Machine) (q : Nat) :
    lastPwm (exposeStart env p).out q = lastPwm p.out q := by
  simp only [exposeStart, millis, digitalWrite]
  split_ifs <;> simp [lastPwm, List.foldl_append]

/-- C4: `expose` starts with a call of `vacuum`.  While each of the first `n`
calls left a pressure below `VacSPoint`, the pre-charge loop has not ended
after `n` iterations, whatever `n` is, and the only output writes made are
those to the pump, so both LED pins are as they were.  If call `n + 1` is the
first to leave a pressure of at least `VacSPoint`, the loop ends with exactly
that call and `expose` goes on to the exposure phase from the state it left;
the loop never ends in another way.  The last pump write at that moment, and
still when the LEDs have been lit, is the controller output of call `n + 1`. -/
theorem C4_precharge_exit (env : Env) (m : Machine) (n : Nat)
    (hbelow : ∀ k, 1 ≤ k → k ≤ n → ((vacuum env)^[k] m).press < m.VacSPoint) :
    (precharge env n m = none ∧ expose env n m = none) ∧
    ((∃ vs : List Int, vs.length = n ∧
        ((vacuum env)^[n] m).out = m.out ++ vs.map (Out.pwmWrite PumpPin)) ∧
      pinLevel ((vacuum env)^[n] m).out lowLED = pinLevel m.out lowLED ∧
      pinLevel ((vacuum env)^[n] m).out highLED = pinLevel m.out highLED) ∧
    (m.VacSPoint ≤ ((vacuum env)^[n + 1] m).press → ∀ fuel, n < fuel →
      precharge env fuel m = some ((vacuum env)^[n + 1] m) ∧
      expose env fuel m =
        (exposeLoop env fuel (exposeStart env ((vacuum env)^[n + 1] m))).map exposeEnd) ∧
    (∀ fuel m', precharge env fuel m = some m' →
      ∃ j, m' = (vacuum env)^[j + 1] m ∧ m.VacSPoint ≤ m'.press ∧
        ∀ k, 1 ≤ k → k ≤ j → ((vacuum env)^[k] m).press < m.VacSPoint) ∧
    (lastPwm ((vacuum env)^[n + 1] m).out PumpPin =
        some (Cont ((vacuum env)^[n + 1] m).PrevDif ((vacuum env)^[n + 1] m).CumDif
          ((vacuum env)^[n + 1] m).MomDif) ∧
      lastPwm (exposeStart env ((vacuum env)^[n + 1] m)).out PumpPin =
        some (Cont ((vacuum env)^[n + 1] m).PrevDif ((vacuum env)^[n + 1] m).CumDif
          ((vacuum env)^[n + 1] m).MomDif)) := by
  have hnone := precharge_blocked env n m n hbelow (le_refl _)
  have hlast : lastPwm ((vacuum env)^[n + 1] m).out PumpPin =
      some (Cont ((vacuum env)^[n + 1] m).PrevDif ((vacuum env)^[n + 1] m).CumDif
        ((vacuum env)^[n + 1] m).MomDif) := by
    rw [Function.iterate_succ_apply', vacuum_out]
    exact lastPwm_append_pwm _ _ _
  refine ⟨⟨hnone, by simp [expose, hnone]⟩, ?_, ?_, ?_, hlast, ?_⟩
  · obtain ⟨vs, hlen, hout⟩ := iterate_vacuum_out env n m
    refine ⟨⟨vs, hlen, hout⟩, ?_, ?_⟩ <;> rw [hout, pinLevel_append_pwm]
  · intro hreach fuel hfuel
    have h := precharge_exit env n m fuel hbelow hreach hfuel
    exact ⟨h, by simp [expose, h]⟩
  · intro fuel m' h
    obtain ⟨j, _, h1, h2, h3⟩ := precharge_some env fuel m m' h
    exact ⟨j, h1, h2, h3⟩
  · rw [lastPwm_exposeStart, hlast]

theorem C4_precharge_exit_witness :
    (∀ k, 1 ≤ k → k ≤ 6 → ((vacuum envA)^[k] machineA).press < 500) ∧
    (precharge envA 6 machineA = none ∧ expose envA 6 machineA = none) ∧
    (500 ≤ ((vacuum envA)^[7] machineA).press → ∀ fuel, 6 < fuel →
      precharge envA fuel machineA = some ((vacuum envA)^[7] machineA) ∧
      expose envA fuel machineA =
        (exposeLoop envA fuel (exposeStart envA ((vacuum envA)^[7] machineA))).map exposeEnd) ∧
    ((vacuum envA)^[7] machineA).press = 500 ∧
    lastPwm ((vacuum envA)^[7] machineA).out PumpPin = some 182 ∧
    lastPwm (exposeStart envA ((vacuum envA)^[7] machineA)).out PumpPin = some 182 := by
  have hb : ∀ k, 1 ≤ k → k ≤ 6 → ((vacuum envA)^[k] machineA).press < machineA.VacSPoint := by
    decide
  have h := C4_precharge_exit envA machineA 6 hb
  have hc : Cont ((vacuum envA)^[7] machineA).PrevDif ((vacuum envA)^[7] machineA).CumDif
      ((vacuum envA)^[7] machineA).MomDif = 182 := by
    decide
  refine ⟨hb, h.1, h.2.2.1, by decide, ?_, ?_⟩
  · rw [h.2.2.2.2.1, hc]
  · rw [h.2.2.2.2.2, hc]

/-! ## Exposure phase -/

theorem button_frame (env : Env) (p : Nat) (m : Machine) :
    (button env p m).2.out = m.out ∧ (button env p m).2.dblSide = m.dblSide ∧
    (button env p m).2.VacSPoint = m.VacSPoint ∧ (button env p m).2.TimeSPoint = m.TimeSPoint ∧
    (button env p m).2.startms = m.startms ∧ (button env p m).2.State = m.State ∧
    (button env p m).2.nSensor = m.nSensor ∧ (button env p m).2.eeprom = m.eeprom := by
  simp only [button, digitalRead, millis]
  split_ifs <;> simp

theorem exposeBody_frame (env : Env) (m : Machine) :
    (∃ v, (exposeBody env m).2.2.out = m.out ++ [Out.pwmWrite PumpPin v]) ∧
    (exposeBody env m).2.2.dblSide = m.dblSide ∧
    (exposeBody env m).2.2.VacSPoint = m.VacSPoint ∧
    (exposeBody env m).2.2.TimeSPoint = m.TimeSPoint ∧
    (exposeBody env m).2.2.startms = m.startms ∧
    (exposeBody env m).2.2.State = m.State ∧
    (exposeBody env m).2.2.nSensor = m.nSensor + 1 ∧
    (exposeBody env m).2.2.eeprom = m.eeprom := by
  obtain ⟨h1, h2, h3, h4, h5, h6, h7, h8⟩ :=
    button_frame env Chrome (vacuum env (millis env m).2)
  simp only [exposeBody]
  refine ⟨⟨Cont (vacuum env (millis env m).2).PrevDif (vacuum env (millis env m).2).CumDif
    (vacuum env (millis env m).2).MomDif, ?_⟩, ?_, ?_, ?_, ?_, ?_, ?_, ?_⟩
  · rw [h1, vacuum_out]; rfl
  · rw [h2]; rfl
  · rw [h3]; rfl
  · rw [h4]; rfl
  · rw [h5]; rfl
  · rw [h6]; rfl
  · rw [h7]; rfl
  · rw [h8]; rfl

theorem exposeLoop_out (env : Env) (fuel : Nat) : ∀ (m m' : Machine),
    exposeLoop env fuel m = some m' →
    ∃ vs : List Int, m'.out = m.out ++ vs.map (Out.pwmWrite PumpPin) := by
  induction fuel with
  | zero => intro m m' h; simp [exposeLoop] at h
  | succ f ih =>
    intro m m' h
    obtain ⟨⟨v, hv⟩, -⟩ := exposeBody_frame env m
    simp only [exposeLoop] at h
    split_ifs at h with h1 h2
    · injection h with h
      exact ⟨[v], by rw [← h, hv]; rfl⟩
    · obtain ⟨vs, hvs⟩ := ih _ _ h
      exact ⟨v :: vs, by rw [hvs, hv]; simp⟩
    · injection h with h
      exact ⟨[v], by rw [← h, hv]; rfl⟩

theorem expose_some {env : Env} {fuel : Nat} {m m' : Machine}
    (h : expose env fuel m = some m') :
    ∃ p r, precharge env fuel m = some p ∧
      exposeLoop env fuel (exposeStart env p) = some r ∧ m' = exposeEnd r := by
  simp only [expose, Option.bind_eq_some, Option.map_eq_some'] at h
  obtain ⟨p, hp, r, hr, he⟩ := h
  exact ⟨p, r, hp, hr, he.symm⟩

theorem exposeEnd_out (r : Machine) :
    (exposeEnd r).out = r.out ++ [Out.digitalWrite lowLED false,
      Out.digitalWrite highLED false, Out.pwmWrite PumpPin 0] := by
  simp [exposeEnd, digitalWrite, pwmWrite]

/-- C5: whenever `expose` returns, be it because the time is over or because
the button was pressed, both LED pins are `LOW`, the last value written to the
pump is 0 and `State` is 0 (stand-by). -/
theorem C5_expose_shutdown (env : Env) (fuel : Nat) (m m' : Machine)
    (h : expose env fuel m = some m') :
    pinLevel m'.out lowLED = false ∧ pinLevel m'.out highLED = false ∧
    lastPwm m'.out PumpPin = some 0 ∧ m'.State = 0 := by
  obtain ⟨p, r, -, -, rfl⟩ := expose_some h
  rw [exposeEnd_out]
  refine ⟨?_, ?_, ?_, rfl⟩
  · simp [pinLevel, List.foldl_append, lowLED, highLED]
  · simp [pinLevel, List.foldl_append, lowLED, highLED]
  · simp [lastPwm, List.foldl_append]

theorem C5_expose_shutdown_witness :
    (∃ m', expose envA 7 machineA = some m' ∧
      pinLevel m'.out lowLED = false ∧ pinLevel m'.out highLED = false ∧
      lastPwm m'.out PumpPin = some 0 ∧ m'.State = 0) ∧
    (∃ m', expose envB 7 machineB = some m' ∧
      pinLevel m'.out lowLED = false ∧ pinLevel m'.out highLED = false ∧
      lastPwm m'.out PumpPin = some 0 ∧ m'.State = 0) :=
  ⟨⟨_, rfl, C5_expose_shutdown envA 7 machineA _ rfl⟩,
   ⟨_, rfl, C5_expose_shutdown envB 7 machineB _ rfl⟩⟩

theorem iterate_vacuum_dblSide (env : Env) (k : Nat) (m : Machine) :
    ((vacuum env)^[k] m).dblSide = m.dblSide := by
  induction k generalizing m with
  | zero => rfl
  | succ k ih => rw [Function.iterate_succ_apply, ih, vacuum_dblSide]

theorem exposeStart_out (env : Env) (p : Machine) :
    (exposeStart env p).out = p.out ++ [Out.digitalWrite lowLED true] ++
      (if p.dblSide ≠ 0 then [Out.digitalWrite highLED true] else []) := by
  simp only [exposeStart, millis, digitalWrite]
  split_ifs <;> simp

theorem button_dblSide (env : Env) (p : Nat) (m : Machine) (d : Int) :
    button env p { m with dblSide := d } =
      ((button env p m).1, { (button env p m).2 with dblSide := d }) := by
  simp only [button, digitalRead, millis]
  split_ifs <;> rfl

theorem exposeBody_dblSide (env : Env) (m : Machine) (d : Int) :
    exposeBody env { m with dblSide := d } =
      ((exposeBody env m).1, (exposeBody env m).2.1,
        { (exposeBody env m).2.2 with dblSide := d }) := by
  simp only [exposeBody]
  have h : vacuum env (millis env { m with dblSide := d }).2 =
      { vacuum env (millis env m).2 with dblSide := d } := rfl
  rw [h, button_dblSide]
  rfl

theorem exposeLoop_dblSide (env : Env) (fuel : Nat) : ∀ (m : Machine) (d : Int),
    exposeLoop env fuel { m with dblSide := d } =
      (exposeLoop env fuel m).map fun r => { r with dblSide := d } := by
  induction fuel with
  | zero => intro m d; rfl
  | succ f ih =>
    intro m d
    simp only [exposeLoop, exposeBody_dblSide]
    split_ifs with h1 h2
    · rfl
    · exact ih _ d
    · rfl

/-- C6: in a run of `expose` that returns, the writes made are: pump writes of
the pre-charge, `lowLED` set `HIGH`, then `highLED` set `HIGH` exactly when
`dblSide` is non-zero at that moment (its value at entry, which the pre-charge
does not change), pump writes of the exposure loop, and the shutdown.  So the
low bank is always switched on and the high bank is switched on if and only if
`dblSide` is set when the exposure phase begins.  `dblSide` is not read again:
replacing its value in any state of the exposure loop changes none of the
writes of the loop. -/
theorem C6_high_bank_captured_once (env : Env) (fuel : Nat) (m m' : Machine)
    (h : expose env fuel m = some m') :
    (∃ (p : Machine) (pre post : List Int),
      precharge env fuel m = some p ∧ p.dblSide = m.dblSide ∧
      p.out = m.out ++ pre.map (Out.pwmWrite PumpPin) ∧
      m'.out = p.out ++ [Out.digitalWrite lowLED true] ++
        (if p.dblSide ≠ 0 then [Out.digitalWrite highLED true] else []) ++
        post.map (Out.pwmWrite PumpPin) ++
        [Out.digitalWrite lowLED false, Out.digitalWrite highLED false,
          Out.pwmWrite PumpPin 0]) ∧
    Out.digitalWrite lowLED true ∈ m'.out.drop m.out.length ∧
    (Out.digitalWrite highLED true ∈ m'.out.drop m.out.length ↔ m.dblSide ≠ 0) ∧
    (∀ (s : Machine) (d : Int) (f : Nat),
      (exposeLoop env f { s with dblSide := d }).map (fun r => r.out) =
        (exposeLoop env f s).map (fun r => r.out)) := by
  obtain ⟨p, r, hp, hr, rfl⟩ := expose_some h
  obtain ⟨j, -, hpj, -, -⟩ := precharge_some env fuel m p hp
  obtain ⟨pre, -, hpre⟩ := iterate_vacuum_out env (j + 1) m
  obtain ⟨post, hpost⟩ := exposeLoop_out env fuel _ _ hr
  have hd : p.dblSide = m.dblSide := by rw [hpj, iterate_vacuum_dblSide]
  have hpo : p.out = m.out ++ pre.map (Out.pwmWrite PumpPin) := by rw [hpj, hpre]
  have hout : (exposeEnd r).out = p.out ++ [Out.digitalWrite lowLED true] ++
        (if p.dblSide ≠ 0 then [Out.digitalWrite highLED true] else []) ++
        post.map (Out.pwmWrite PumpPin) ++
        [Out.digitalWrite lowLED false, Out.digitalWrite highLED false,
          Out.pwmWrite PumpPin 0] := by
    rw [exposeEnd_out, hpost, exposeStart_out]
  refine ⟨⟨p, pre, post, hp, hd, hpo, hout⟩, ?_, ?_, ?_⟩
  · rw [hout, hpo]
    simp [List.append_assoc, List.drop_append]
  · rw [hout, hpo, hd]
    by_cases hz : m.dblSide = 0
    · simp [List.append_assoc, List.drop_append, hz, lowLED, highLED]
    · simp [List.append_assoc, List.drop_append, hz, lowLED, highLED]
  · intro s d f
    rw [exposeLoop_dblSide, Option.map_map]
    rfl

theorem C6_high_bank_captured_once_witness :
    ∃ m', expose envA 7 machineD = some m' ∧
      Out.digitalWrite lowLED true ∈ m'.out.drop machineD.out.length ∧
      (Out.digitalWrite highLED true ∈ m'.out.drop machineD.out.length ↔ (1 : Int) ≠ 0) :=
  ⟨_, rfl, (C6_high_bank_captured_once envA 7 machineD _ rfl).2.1,
    (C6_high_bank_captured_once envA 7 machineD _ rfl).2.2.1⟩

/-! ## Exposure loop -/

theorem exposeLoop_succ (env : Env) (f : Nat) (m : Machine) :
    exposeLoop env (f + 1) m =
      if exposeExit env m = true then some (exposeIter env m)
      else exposeLoop env f (exposeIter env m) := by
  simp only [exposeLoop, exposeExit, exposeIter]
  by_cases h1 : (exposeBody env m).2.1 = 0 <;>
    by_cases h2 : (exposeBody env m).1 < (exposeBody env m).2.2.TimeSPoint <;>
    simp [h1, h2]

theorem rotary_frame (env : Env) (param : Int) (m : Machine) :
    (rotary env param m).State = m.State ∧ (rotary env param m).eeprom = m.eeprom ∧
    (rotary env param m).out = m.out := by
  simp only [rotary, digitalRead, millis]
  split_ifs <;> (try split) <;> exact ⟨rfl, rfl, rfl⟩

theorem rotary_3_frame (env : Env) (m : Machine) :
    (rotary env 3 m).VacSPoint = m.VacSPoint ∧ (rotary env 3 m).TimeSPoint = m.TimeSPoint := by
  simp only [rotary, digitalRead, millis]
  split_ifs <;> exact ⟨rfl, rfl⟩

theorem button_State (env : Env) (p : Nat) (m : Machine) (s : Int) :
    button env p { m with State := s } =
      ((button env p m).1, { (button env p m).2 with State := s }) := by
  simp only [button, digitalRead, millis]
  split_ifs <;> rfl

theorem loop_1 (env : Env) (fuel : Nat) (m : Machine) (h : m.State = 1) :
    loop env fuel m = some (if (button env Rot (rotary env 1 m)).1 ≠ 0
      then { (button env Rot (rotary env 1 m)).2 with State := 2 }
      else (button env Rot (rotary env 1 m)).2) := by
  simp only [loop, h]

theorem loop_2 (env : Env) (fuel : Nat) (m : Machine) (h : m.State = 2) :
    loop env fuel m = some (if (button env Rot (rotary env 2 m)).1 ≠ 0
      then { (button env Rot (rotary env 2 m)).2 with State := 3 }
      else (button env Rot (rotary env 2 m)).2) := by
  simp only [loop, h]

theorem loop_3 (env : Env) (fuel : Nat) (m : Machine) (h : m.State = 3) :
    loop env fuel m = some (if (button env Rot (rotary env 3 m)).1 ≠ 0
      then { commitParams (button env Rot (rotary env 3 m)).2 with State := 0 }
      else (button env Rot (rotary env 3 m)).2) := by
  simp only [loop, h]

/-- C8: a pass of `loop` in state 1, 2 or 3 returns, and with `b` the result of
its poll of the encoder button: from state 1 the next state is 2 when `b` is
non-zero and 1 otherwise; from state 2 it is 3 resp. 2; from state 3 it is 0
resp. 3, and on the way to 0 both setpoints are written to EEPROM bytes 11 to
14, while the EEPROM is untouched otherwise.  No other state is reached. -/
theorem C8_configuration_chain (env : Env) (fuel : Nat) (m : Machine)
    (hS : m.State = 1 ∨ m.State = 2 ∨ m.State = 3) :
    ∃ m', loop env fuel m = some m' ∧
      (m.State = 1 →
        ((button env Rot (rotary env 1 m)).1 ≠ 0 → m'.State = 2) ∧
        ((button env Rot (rotary env 1 m)).1 = 0 → m'.State = 1)) ∧
      (m.State = 2 →
        ((button env Rot (rotary env 2 m)).1 ≠ 0 → m'.State = 3) ∧
        ((button env Rot (rotary env 2 m)).1 = 0 → m'.State = 2)) ∧
      (m.State = 3 →
        ((button env Rot (rotary env 3 m)).1 ≠ 0 →
          m'.State = 0 ∧
          m' = { commitParams (button env Rot (rotary env 3 m)).2 with State := 0 } ∧
          m'.eeprom 11 = toU8 (m.VacSPoint % 256) ∧
          m'.eeprom 12 = toU8 (m.VacSPoint / 256) ∧
          m'.eeprom 13 = toU8 (m.TimeSPoint % 256) ∧
          m'.eeprom 14 = toU8 (m.TimeSPoint / 256)) ∧
        ((button env Rot (rotary env 3 m)).1 = 0 →
          m'.State = 3 ∧ m'.eeprom = m.eeprom)) ∧
      (m'.State = m.State ∨ (m.State = 1 ∧ m'.State = 2) ∨ (m.State = 2 ∧ m'.State = 3) ∨
        (m.State = 3 ∧ m'.State = 0)) := by
  rcases hS with h | h | h
  · have hb := (button_frame env Rot (rotary env 1 m)).2.2.2.2.2.1
    have hr := (rotary_frame env 1 m).1
    refine ⟨_, loop_1 env fuel m h, ?_, ?_, ?_, ?_⟩
    · intro _
      constructor
      · intro hne; rw [if_pos hne]
      · intro he; rw [if_neg (by simp [he]), hb, hr, h]
    · intro h2; rw [h] at h2; exact absurd h2 (by decide)
    · intro h3; rw [h] at h3; exact absurd h3 (by decide)
    · by_cases hne : (button env Rot (rotary env 1 m)).1 ≠ 0
      · rw [if_pos hne]; exact Or.inr (Or.inl ⟨h, rfl⟩)
      · rw [if_neg hne, hb, hr]; exact Or.inl rfl
  · have hb := (button_frame env Rot (rotary env 2 m)).2.2.2.2.2.1
    have hr := (rotary_frame env 2 m).1
    refine ⟨_, loop_2 env fuel m h, ?_, ?_, ?_, ?_⟩
    · intro h1; rw [h] at h1; exact absurd h1 (by decide)
    · intro _
      constructor
      · intro hne; rw [if_pos hne]
      · intro he; rw [if_neg (by simp [he]), hb, hr, h]
    · intro h3; rw [h] at h3; exact absurd h3 (by decide)
    · by_cases hne : (button env Rot (rotary env 2 m)).1 ≠ 0
      · rw [if_pos hne]; exact Or.inr (Or.inr (Or.inl ⟨h, rfl⟩))
      · rw [if_neg hne, hb, hr]; exact Or.inl rfl
  · obtain ⟨-, -, hbV, hbT, -, hb, -, hbe⟩ := button_frame env Rot (rotary env 3 m)
    obtain ⟨hr, hre, -⟩ := rotary_frame env 3 m
    obtain ⟨hrV, hrT⟩ := rotary_3_frame env m
    obtain ⟨c11, c12, c13, c14⟩ := commitParams_eeprom (button env Rot (rotary env 3 m)).2
    rw [hbV, hrV] at c11 c12
    rw [hbT, hrT] at c13 c14
    refine ⟨_, loop_3 env fuel m h, ?_, ?_, ?_, ?_⟩
    · intro h1; rw [h] at h1; exact absurd h1 (by decide)
    · intro h2; rw [h] at h2; exact absurd h2 (by decide)
    · intro _
      constructor
      · intro hne; rw [if_pos hne]
        exact ⟨rfl, rfl, c11, c12, c13, c14⟩
      · intro he; rw [if_neg (by simp [he])]
        exact ⟨by rw [hb, hr, h], by rw [hbe, hre]⟩
    · by_cases hne : (button env Rot (rotary env 3 m)).1 ≠ 0
      · rw [if_pos hne]; exact Or.inr (Or.inr (Or.inr ⟨h, rfl⟩))
      · rw [if_neg hne, hb, hr]; exact Or.inl rfl

theorem C8_configuration_chain_witness :
    (machineP.State = 1 ∨ machineP.State = 2 ∨ machineP.State = 3) ∧
    (button envP Rot (rotary envP 3 machineP)).1 ≠ 0 ∧
    ∃ m', loop envP 0 machineP = some m' ∧ m'.State = 0 ∧
      m'.eeprom 11 = toU8 (500 % 256) ∧ m'.eeprom 12 = toU8 (500 / 256) ∧
      m'.eeprom 13 = toU8 (2 % 256) ∧ m'.eeprom 14 = toU8 (2 / 256) := by
  have hS : machineP.State = 1 ∨ machineP.State = 2 ∨ machineP.State = 3 := by decide
  have hb : (button envP Rot (rotary envP 3 machineP)).1 ≠ 0 := by decide
  obtain ⟨m', hm', -, -, h3, -⟩ := C8_configuration_chain envP 0 machineP hS
  obtain ⟨h0, -, c11, c12, c13, c14⟩ := (h3 (by decide)).1 hb
  exact ⟨hS, hb, m', hm', h0, c11, c12, c13, c14⟩

theorem button_push (env : Env) (p : Nat) (m : Machine) (h : (button env p m).1 ≠ 0) :
    (button env p m).2.prevBut = 0 := by
  simp only [button, digitalRead, millis] at h ⊢
  split_ifs at h ⊢ <;> simp_all

theorem button_no_push (env : Env) (p : Nat) (m : Machine) (h : m.prevBut = 0) :
    (button env p m).1 = 0 := by
  simp only [button, digitalRead, millis]
  split_ifs <;> simp_all

theorem loop_0 (env : Env) (fuel : Nat) (m : Machine) (h : m.State = 0) :
    loop env fuel m =
      some (if (button env Rot (if (button env Chrome m).1 ≠ 0
          then { (button env Chrome m).2 with State := 4 } else (button env Chrome m).2)).1 ≠ 0
        then { (button env Rot (if (button env Chrome m).1 ≠ 0
          then { (button env Chrome m).2 with State := 4 } else (button env Chrome m).2)).2
            with State := 1 }
        else (button env Rot (if (button env Chrome m).1 ≠ 0
          then { (button env Chrome m).2 with State := 4 } else (button env Chrome m).2)).2) := by
  simp only [loop, h]

theorem loop_4 (env : Env) (fuel : Nat) (m : Machine) (h : m.State = 4) :
    loop env fuel m = expose env fuel m := by
  simp only [loop, h]

theorem iterate_vacuum_TimeSPoint (env : Env) (k : Nat) (m : Machine) :
    ((vacuum env)^[k] m).TimeSPoint = m.TimeSPoint := by
  induction k generalizing m with
  | zero => rfl
  | succ k ih => rw [Function.iterate_succ_apply, ih, vacuum_TimeSPoint]

theorem idle_pass (env : Env) (fuel : Nat) (m : Machine) (h : m.State = 0) :
    ∃ m', loop env fuel m = some m' ∧
      ((button env Chrome m).1 ≠ 0 → m'.State = 4) ∧
      ((button env Rot (button env Chrome m).2).1 ≠ 0 → m'.State = 1) ∧
      ((button env Chrome m).1 = 0 → (button env Rot (button env Chrome m).2).1 = 0 →
        m'.State = 0) := by
  refine ⟨_, loop_0 env fuel m h, ?_, ?_, ?_⟩
  · intro h1
    have h2 : (button env Rot (button env Chrome m).2).1 = 0 :=
      button_no_push env Rot _ (button_push env Chrome m h1)
    have e : (if (button env Chrome m).1 ≠ 0
        then { (button env Chrome m).2 with State := 4 } else (button env Chrome m).2) =
        { (button env Chrome m).2 with State := 4 } := if_pos h1
    rw [e, button_State]
    simp only
    rw [if_neg (by simp [h2])]
  · intro h2
    have h1 : (button env Chrome m).1 = 0 := by
      by_contra hne
      exact h2 (button_no_push env Rot _ (button_push env Chrome m hne))
    have e : (if (button env Chrome m).1 ≠ 0
        then { (button env Chrome m).2 with State := 4 } else (button env Chrome m).2) =
        (button env Chrome m).2 := if_neg (by simp [h1])
    rw [e, if_pos h2]
  · intro h1 h2
    have e : (if (button env Chrome m).1 ≠ 0
        then { (button env Chrome m).2 with State := 4 } else (button env Chrome m).2) =
        (button env Chrome m).2 := if_neg (by simp [h1])
    rw [e, if_neg (by simp [h2])]
    rw [(button_frame env Rot _).2.2.2.2.2.1, (button_frame env Chrome m).2.2.2.2.2.1, h]

theorem rotary_prevA (env : Env) (param : Int) (m : Machine) :
    (rotary env param m).prevA = sampleA env m := by
  simp only [rotary, sampleA]
  by_cases h : (digitalRead env RotA m).1 = (digitalRead env RotA m).2.prevA
  · rw [if_neg (by simpa using h)]
    exact h.symm
  · rw [if_pos h]
    split <;> rfl

theorem rotary_1_TimeSPoint (env : Env) (m : Machine)
    (hr : -32768 ≤ m.TimeSPoint ∧ m.TimeSPoint ≤ 32767) :
    (rotary env 1 m).TimeSPoint =
      wrap16 (m.TimeSPoint + rotaryStep m.prevA (sampleA env m) (sampleB env m)) := by
  simp only [rotary, rotaryStep, sampleA, sampleB]
  by_cases h : (digitalRead env RotA m).1 = (digitalRead env RotA m).2.prevA
  · have h2 : (digitalRead env RotA m).1 = m.prevA := h
    rw [if_neg (by simpa using h), if_pos h2, add_zero, wrap16_of_range hr]
    rfl
  · have h2 : ¬ (digitalRead env RotA m).1 = m.prevA := h
    rw [if_pos h, if_neg h2]
    rfl

theorem rotary_2_VacSPoint (env : Env) (m : Machine)
    (hr : -32768 ≤ m.VacSPoint ∧ m.VacSPoint ≤ 32767) :
    (rotary env 2 m).VacSPoint =
      wrap16 (m.VacSPoint + rotaryStep m.prevA (sampleA env m) (sampleB env m)) := by
  simp only [rotary, rotaryStep, sampleA, sampleB]
  by_cases h : (digitalRead env RotA m).1 = (digitalRead env RotA m).2.prevA
  · have h2 : (digitalRead env RotA m).1 = m.prevA := h
    rw [if_neg (by simpa using h), if_pos h2, add_zero, wrap16_of_range hr]
    rfl
  · have h2 : ¬ (digitalRead env RotA m).1 = m.prevA := h
    rw [if_pos h, if_neg h2]
    rfl

theorem button_prevA (env : Env) (p : Nat) (m : Machine) :
    (button env p m).2.prevA = m.prevA := by
  simp only [button, digitalRead, millis]
  split_ifs <;> rfl

theorem configPass_frame (env : Env) (param : Int) (m : Machine) :
    (configPass env param m).TimeSPoint = (rotary env param m).TimeSPoint ∧
    (configPass env param m).VacSPoint = (rotary env param m).VacSPoint ∧
    (configPass env param m).prevA = (rotary env param m).prevA := by
  obtain ⟨-, -, hV, hT, -⟩ := button_frame env Rot (rotary env param m)
  exact ⟨hT, hV, button_prevA env Rot _⟩

theorem wrap16_add_wrap16 (a b : Int) : wrap16 (wrap16 a + b) = wrap16 (a + b) := by
  unfold wrap16; omega

theorem iterate_configPass_1 (env : Env) (n : Nat) : ∀ m : Machine,
    (-32768 ≤ m.TimeSPoint ∧ m.TimeSPoint ≤ 32767) →
    ((configPass env 1)^[n] m).TimeSPoint =
      wrap16 (m.TimeSPoint + stepSum env (configPass env 1) n m) := by
  induction n with
  | zero => intro m hr; simp [stepSum, wrap16_of_range hr]
  | succ n ih =>
    intro m hr
    have h1 : (configPass env 1 m).TimeSPoint =
        wrap16 (m.TimeSPoint + rotaryStep m.prevA (sampleA env m) (sampleB env m)) := by
      rw [(configPass_frame env 1 m).1, rotary_1_TimeSPoint env m hr]
    rw [Function.iterate_succ_apply, ih _ (by rw [h1]; exact wrap16_range _), h1,
      wrap16_add_wrap16]
    simp only [stepSum, add_assoc]

theorem iterate_configPass_2 (env : Env) (n : Nat) : ∀ m : Machine,
    (-32768 ≤ m.VacSPoint ∧ m.VacSPoint ≤ 32767) →
    ((configPass env 2)^[n] m).VacSPoint =
      wrap16 (m.VacSPoint + stepSum env (configPass env 2) n m) := by
  induction n with
  | zero => intro m hr; simp [stepSum, wrap16_of_range hr]
  | succ n ih =>
    intro m hr
    have h1 : (configPass env 2 m).VacSPoint =
        wrap16 (m.VacSPoint + rotaryStep m.prevA (sampleA env m) (sampleB env m)) := by
      rw [(configPass_frame env 2 m).2.1, rotary_2_VacSPoint env m hr]
    rw [Function.iterate_succ_apply, ih _ (by rw [h1]; exact wrap16_range _), h1,
      wrap16_add_wrap16]
    simp only [stepSum, add_assoc]

/-- C10 (amended): let the setpoints be 16-bit values at entry.  One call of
`rotary(1)` (resp. `rotary(2)`) adds the decoded step to `TimeSPoint` (resp.
`VacSPoint`) as a 16-bit `int`, the step being 0 when channel A equals `prevA`,
+1 when A changed and B differs from the new A, -1 when A changed and B equals
it, and leaves in `prevA` the level of A it sampled.  After any `n` passes of
`loop` in state 1 (resp. 2) the edited setpoint is therefore its entry value
plus the sum of the decoded steps, reduced to a 16-bit `int`; it is exactly
that sum whenever the sum lies between -32768 and 32767. -/
theorem C10_rotary_step_sum (env : Env) (m : Machine) (n : Nat)
    (hT : -32768 ≤ m.TimeSPoint ∧ m.TimeSPoint ≤ 32767)
    (hV : -32768 ≤ m.VacSPoint ∧ m.VacSPoint ≤ 32767) :
    ((rotary env 1 m).TimeSPoint =
        wrap16 (m.TimeSPoint + rotaryStep m.prevA (sampleA env m) (sampleB env m)) ∧
      (rotary env 2 m).VacSPoint =
        wrap16 (m.VacSPoint + rotaryStep m.prevA (sampleA env m) (sampleB env m))) ∧
    (((configPass env 1)^[n] m).TimeSPoint =
        wrap16 (m.TimeSPoint + stepSum env (configPass env 1) n m) ∧
      ((configPass env 2)^[n] m).VacSPoint =
        wrap16 (m.VacSPoint + stepSum env (configPass env 2) n m)) ∧
    ((-32768 ≤ m.TimeSPoint + stepSum env (configPass env 1) n m ∧
        m.TimeSPoint + stepSum env (configPass env 1) n m ≤ 32767) →
      ((configPass env 1)^[n] m).TimeSPoint =
        m.TimeSPoint + stepSum env (configPass env 1) n m) ∧
    ((-32768 ≤ m.VacSPoint + stepSum env (configPass env 2) n m ∧
        m.VacSPoint + stepSum env (configPass env 2) n m ≤ 32767) →
      ((configPass env 2)^[n] m).VacSPoint =
        m.VacSPoint + stepSum env (configPass env 2) n m) ∧
    (∀ (param : Int) (s : Machine), (rotary env param s).prevA = sampleA env s ∧
      (configPass env param s).prevA = sampleA env s) := by
  refine ⟨⟨rotary_1_TimeSPoint env m hT, rotary_2_VacSPoint env m hV⟩,
    ⟨iterate_configPass_1 env n m hT, iterate_configPass_2 env n m hV⟩, ?_, ?_, ?_⟩
  · intro h; rw [iterate_configPass_1 env n m hT, wrap16_of_range h]
  · intro h; rw [iterate_configPass_2 env n m hV, wrap16_of_range h]
  · intro param s
    exact ⟨rotary_prevA env param s,
      by rw [(configPass_frame env param s).2.2, rotary_prevA]⟩

theorem C10_rotary_step_sum_witness :
    ((-32768 : Int) ≤ 2 ∧ (2 : Int) ≤ 32767) ∧ ((-32768 : Int) ≤ 500 ∧ (500 : Int) ≤ 32767) ∧
    (stepSum envT (configPass envT 1) 1 machineA = 1 ∧
      stepSum envT (configPass envT 1) 2 machineA = 1 ∧
      stepSum envT (configPass envT 1) 3 machineA = 0) ∧
    ((configPass envT 1)^[1] machineA).TimeSPoint = 2 + 1 ∧
    ((configPass envT 1)^[3] machineA).TimeSPoint = 2 + 0 ∧
    ((configPass envT 2)^[1] machineA).VacSPoint = 500 + 1 :=
  ⟨by decide, by decide, by decide,
    (C10_rotary_step_sum envT machineA 1 (by decide) (by decide)).2.2.1 (by decide),
    (C10_rotary_step_sum envT machineA 3 (by decide) (by decide)).2.2.1 (by decide),
    (C10_rotary_step_sum envT machineA 1 (by decide) (by decide)).2.2.2.1 (by decide)⟩

/-- C10 fails as stated: with `TimeSPoint` at 32767, a pass of `loop` in state 1
in which `rotary` decodes the step +1 leaves -32768 in `TimeSPoint`, not
32768. -/
theorem C10_setpoint_wraps :
    machineO.State = 1 ∧ machineO.TimeSPoint = 32767 ∧
    rotaryStep machineO.prevA (sampleA envT machineO) (sampleB envT machineO) = 1 ∧
    stepSum envT (configPass envT 1) 1 machineO = 1 ∧
    (rotary envT 1 machineO).TimeSPoint = -32768 ∧
    (loop envT 0 machineO).map (fun r => r.TimeSPoint) = some (-32768) ∧
    (loop envT 0 machineO).map (fun r => r.TimeSPoint) ≠
      some (machineO.TimeSPoint + stepSum envT (configPass envT 1) 1 machineO) := by
  decide

/-! ## Debounce -/

theorem button_push_time (env : Env) (p : Nat) (m : Machine) (h : (button env p m).1 ≠ 0) :
    (button env p m).2.lastpush = env.clock (m.nClock + 1) % 4294967296 ∧
    (button env p m).2.nClock = m.nClock + 2 ∧
    wrapU32 ((env.clock m.nClock % 4294967296 : Nat) - (m.lastpush : Int)) > debTime ∧
    env.pin p m.nRead = false ∧ m.prevBut = 1 := by
  simp only [button, digitalRead, millis] at h ⊢
  split_ifs at h ⊢ <;> simp_all

theorem button_lastpush (env : Env) (p : Nat) (m : Machine) :
    ((button env p m).2.lastpush = m.lastpush ∧ m.nClock < (button env p m).2.nClock) ∨
    ((button env p m).2.lastpush = env.clock (m.nClock + 1) % 4294967296 ∧
      (button env p m).2.nClock = m.nClock + 2) := by
  simp only [button, digitalRead, millis]
  split_ifs <;> simp

theorem StampedSince.step {env : Env} {c0 : Nat} {s : Machine} (p : Nat)
    (h : StampedSince env c0 s) : StampedSince env c0 (pollNext env p s) := by
  obtain ⟨k, h1, h2, h3⟩ := h
  rcases button_lastpush env p s with ⟨e1, e2⟩ | ⟨e1, e2⟩
  · exact ⟨k, h1, by simp only [pollNext]; omega, by simp only [pollNext]; rw [e1, h3]⟩
  · exact ⟨s.nClock + 1, by omega, by simp only [pollNext]; omega,
      by simp only [pollNext]; rw [e1]⟩

theorem StampedSince.steps {env : Env} {c0 : Nat} (p : Nat) (n : Nat) :
    ∀ s : Machine, StampedSince env c0 s → StampedSince env c0 ((pollNext env p)^[n] s) := by
  induction n with
  | zero => intro s h; exact h
  | succ n ih => intro s h; rw [Function.iterate_succ_apply]; exact ih _ (h.step p)

theorem StampedSince.push_later {env : Env} {c0 : Nat} {s : Machine} (p : Nat)
    (hmono : ∀ a b, a ≤ b → env.clock a ≤ env.clock b)
    (h : StampedSince env c0 s) (hp : (button env p s).1 ≠ 0) :
    env.clock c0 + 20 < env.clock s.nClock := by
  obtain ⟨k, h1, h2, h3⟩ := h
  obtain ⟨-, -, hw, -, -⟩ := button_push_time env p s hp
  have hk := hmono c0 k h1
  have hs := hmono k s.nClock (by omega)
  rw [h3] at hw
  simp only [wrapU32, debTime] at hw
  omega

theorem pollNext_low (env : Env) (p : Nat) (s : Machine) (h0 : s.prevBut = 0)
    (hl : env.pin p s.nRead = false) : (pollNext env p s).prevBut = 0 := by
  simp only [pollNext, button, digitalRead, millis]
  split_ifs <;> simp_all

theorem iterate_pollNext_low (env : Env) (p : Nat) (d : Nat) : ∀ (a : Nat) (m : Machine),
    ((pollNext env p)^[a] m).prevBut = 0 →
    (∀ k, a ≤ k → k < a + d → env.pin p ((pollNext env p)^[k] m).nRead = false) →
    ((pollNext env p)^[a + d] m).prevBut = 0 := by
  induction d with
  | zero => intro a m h0 _; exact h0
  | succ d ih =>
    intro a m h0 hl
    have h := ih a m h0 (fun k hk1 hk2 => hl k hk1 (by omega))
    have e : a + (d + 1) = (a + d) + 1 := by omega
    rw [e, Function.iterate_succ_apply']
    exact pollNext_low env p _ h (hl (a + d) (by omega) (by omega))

/-- C11: in a sequence of polls of one button under a clock that never goes
back, two polls that both report an edge are more than `debTime` = 20 ms
apart (measured at the clock reading each poll starts with), and between
them some poll sampled the button released.  So a button that is not seen
released in between, however its level bounces, is reported at most once, and
two reports are never less than 20 ms apart. -/
theorem C11_debounce_spacing (env : Env) (p : Nat) (m : Machine) (i j : Nat)
    (hmono : ∀ a b, a ≤ b → env.clock a ≤ env.clock b) (hij : i < j)
    (hi : (button env p ((pollNext env p)^[i] m)).1 ≠ 0)
    (hj : (button env p ((pollNext env p)^[j] m)).1 ≠ 0) :
    env.clock ((pollNext env p)^[i] m).nClock + 20 <
      env.clock ((pollNext env p)^[j] m).nClock ∧
    ∃ k, i < k ∧ k < j ∧ env.pin p ((pollNext env p)^[k] m).nRead = true := by
  obtain ⟨d, rfl⟩ : ∃ d, j = (i + 1) + d := ⟨j - (i + 1), by omega⟩
  have hnext : (pollNext env p)^[i + 1] m = pollNext env p ((pollNext env p)^[i] m) :=
    Function.iterate_succ_apply' _ _ _
  constructor
  · obtain ⟨h1, h2, -⟩ := button_push_time env p _ hi
    have hs : StampedSince env (((pollNext env p)^[i] m).nClock + 1)
        ((pollNext env p)^[i + 1] m) := by
      rw [hnext]
      exact ⟨_, le_refl _, by simp only [pollNext]; omega, by simp only [pollNext]; exact h1⟩
    have hs2 := StampedSince.steps p d _ hs
    rw [← Function.iterate_add_apply, Nat.add_comm d (i + 1)] at hs2
    have := hs2.push_later p hmono hj
    have := hmono ((pollNext env p)^[i] m).nClock (((pollNext env p)^[i] m).nClock + 1)
      (by omega)
    omega
  · by_contra hno
    push_neg at hno
    have h0 : ((pollNext env p)^[i + 1] m).prevBut = 0 := by
      rw [hnext]; exact button_push env p _ hi
    have hz := iterate_pollNext_low env p d (i + 1) m h0 (fun k hk1 hk2 => by
      have := hno k (by omega) (by omega)
      simpa using this)
    exact hj (button_no_push env p _ hz)

theorem C11_debounce_spacing_witness :
    (∀ a b, a ≤ b → envK.clock a ≤ envK.clock b) ∧
    (button envK Chrome ((pollNext envK Chrome)^[1] machineA)).1 ≠ 0 ∧
    (button envK Chrome ((pollNext envK Chrome)^[4] machineA)).1 ≠ 0 ∧
    envK.clock ((pollNext envK Chrome)^[1] machineA).nClock + 20 <
      envK.clock ((pollNext envK Chrome)^[4] machineA).nClock ∧
    ∃ k, 1 < k ∧ k < 4 ∧ envK.pin Chrome ((pollNext envK Chrome)^[k] machineA).nRead = true := by
  have hm : ∀ a b, a ≤ b → envK.clock a ≤ envK.clock b := by
    intro a b hab
    simp only [envK, envA]
    omega
  have h1 : (button envK Chrome ((pollNext envK Chrome)^[1] machineA)).1 ≠ 0 := by decide
  have h4 : (button envK Chrome ((pollNext envK Chrome)^[4] machineA)).1 ≠ 0 := by decide
  exact ⟨hm, h1, h4, C11_debounce_spacing envK Chrome machineA 1 4 hm (by decide) h1 h4⟩

/-! ## One debounce state for two buttons -/

/-- C12 does not hold of the code: `prevBut` and `lastpush` are the only
debounce state and a poll of the chrome button writes both.  With the encoder
button held down and polled at the same time in both environments, its poll
reports no edge after a poll of the pressed chrome button and an edge after a
poll of the released chrome button. -/
theorem C12_shared_debounce_state :
    ((button envX1 Chrome machineX).2.prevBut ≠ machineX.prevBut ∧
      (button envX1 Chrome machineX).2.lastpush ≠ machineX.lastpush) ∧
    (envX1.clock = envX2.clock ∧ ∀ k, envX1.pin Rot k = envX2.pin Rot k) ∧
    (button envX1 Rot (button envX1 Chrome machineX).2).1 = 0 ∧
    (button envX2 Rot (button envX2 Chrome machineX).2).1 = 1 :=
  ⟨by decide, ⟨rfl, fun _ => rfl⟩, by decide, by decide⟩

/-! ## Frame of one pass of `loop` -/

theorem iterate_vacuum_eeprom (env : Env) (k : Nat) (m : Machine) :
    ((vacuum env)^[k] m).eeprom = m.eeprom := by
  induction k generalizing m with
  | zero => rfl
  | succ k ih => rw [Function.iterate_succ_apply, ih]; rfl

theorem exposeStart_params (env : Env) (p : Machine) :
    (exposeStart env p).eeprom = p.eeprom ∧ (exposeStart env p).VacSPoint = p.VacSPoint ∧
    (exposeStart env p).TimeSPoint = p.TimeSPoint ∧ (exposeStart env p).dblSide = p.dblSide := by
  simp only [exposeStart, millis, digitalWrite]
  split_ifs <;> exact ⟨rfl, rfl, rfl, rfl⟩

theorem exposeLoop_params (env : Env) (fuel : Nat) : ∀ (m m' : Machine),
    exposeLoop env fuel m = some m' →
    m'.eeprom = m.eeprom ∧ m'.VacSPoint = m.VacSPoint ∧ m'.TimeSPoint = m.TimeSPoint ∧
      m'.dblSide = m.dblSide := by
  induction fuel with
  | zero => intro m m' h; simp [exposeLoop] at h
  | succ f ih =>
    intro m m' h
    obtain ⟨-, hd, hV, hT, -, -, -, he⟩ := exposeBody_frame env m
    rw [exposeLoop_succ] at h
    split_ifs at h with hx
    · injection h with h
      rw [← h]
      exact ⟨he, hV, hT, hd⟩
    · obtain ⟨e1, e2, e3, e4⟩ := ih _ _ h
      exact ⟨e1.trans he, e2.trans hV, e3.trans hT, e4.trans hd⟩

theorem expose_params {env : Env} {fuel : Nat} {m m' : Machine}
    (h : expose env fuel m = some m') :
    m'.eeprom = m.eeprom ∧ m'.VacSPoint = m.VacSPoint ∧ m'.TimeSPoint = m.TimeSPoint ∧
      m'.dblSide = m.dblSide := by
  obtain ⟨p, r, hp, hr, rfl⟩ := expose_some h
  obtain ⟨j, -, hpj, -, -⟩ := precharge_some env fuel m p hp
  obtain ⟨s1, s2, s3, s4⟩ := exposeStart_params env p
  obtain ⟨l1, l2, l3, l4⟩ := exposeLoop_params env fuel _ _ hr
  have p1 : p.eeprom = m.eeprom := by rw [hpj, iterate_vacuum_eeprom]
  have p2 : p.VacSPoint = m.VacSPoint := by rw [hpj, iterate_vacuum_VacSPoint]
  have p3 : p.TimeSPoint = m.TimeSPoint := by rw [hpj, iterate_vacuum_TimeSPoint]
  have p4 : p.dblSide = m.dblSide := by rw [hpj, iterate_vacuum_dblSide]
  exact ⟨(l1.trans s1).trans p1, (l2.trans s2).trans p2, (l3.trans s3).trans p3,
    (l4.trans s4).trans p4⟩

theorem rotary_params (env : Env) (m : Machine) :
    ((rotary env 1 m).VacSPoint = m.VacSPoint ∧ (rotary env 1 m).dblSide = m.dblSide) ∧
    ((rotary env 2 m).TimeSPoint = m.TimeSPoint ∧ (rotary env 2 m).dblSide = m.dblSide) := by
  simp only [rotary, digitalRead, millis]
  split_ifs <;> exact ⟨⟨rfl, rfl⟩, rfl, rfl⟩

theorem ite_State_params (c : Prop) [Decidable c] (x : Machine) (s : Int) :
    (if c then { x with State := s } else x).eeprom = x.eeprom ∧
    (if c then { x with State := s } else x).VacSPoint = x.VacSPoint ∧
    (if c then { x with State := s } else x).TimeSPoint = x.TimeSPoint ∧
    (if c then { x with State := s } else x).dblSide = x.dblSide := by
  split_ifs <;> exact ⟨rfl, rfl, rfl, rfl⟩

theorem button_params (env : Env) (p : Nat) (m : Machine) :
    (button env p m).2.eeprom = m.eeprom ∧ (button env p m).2.VacSPoint = m.VacSPoint ∧
    (button env p m).2.TimeSPoint = m.TimeSPoint ∧ (button env p m).2.dblSide = m.dblSide := by
  obtain ⟨-, hd, hV, hT, -, -, -, he⟩ := button_frame env p m
  exact ⟨he, hV, hT, hd⟩

theorem commitParams_params (x : Machine) :
    (commitParams x).VacSPoint = x.VacSPoint ∧ (commitParams x).TimeSPoint = x.TimeSPoint ∧
    (commitParams x).dblSide = x.dblSide ∧ (commitParams x).CumDif = x.CumDif ∧
    (commitParams x).PrevDif = x.PrevDif := by
  refine ⟨?_, ?_, ?_, ?_, ?_⟩ <;> simp only [commitParams, EEPROM_write]

theorem loop_other (env : Env) (fuel : Nat) (m : Machine) (h0 : m.State ≠ 0)
    (h1 : m.State ≠ 1) (h2 : m.State ≠ 2) (h3 : m.State ≠ 3) (h4 : m.State ≠ 4) :
    loop env fuel m = some m := by
  unfold loop
  split <;> first | contradiction | rfl

theorem loop_0_params {env : Env} {fuel : Nat} {m m' : Machine} (hS : m.State = 0)
    (h : loop env fuel m = some m') :
    m'.eeprom = m.eeprom ∧ m'.VacSPoint = m.VacSPoint ∧ m'.TimeSPoint = m.TimeSPoint ∧
      m'.dblSide = m.dblSide := by
  rw [loop_0 env fuel m hS] at h
  injection h with h
  subst h
  obtain ⟨a1, a2, a3, a4⟩ := ite_State_params
    ((button env Rot (if (button env Chrome m).1 ≠ 0
      then { (button env Chrome m).2 with State := 4 } else (button env Chrome m).2)).1 ≠ 0)
    (button env Rot (if (button env Chrome m).1 ≠ 0
      then { (button env Chrome m).2 with State := 4 } else (button env Chrome m).2)).2 1
  obtain ⟨b1, b2, b3, b4⟩ := button_params env Rot (if (button env Chrome m).1 ≠ 0
      then { (button env Chrome m).2 with State := 4 } else (button env Chrome m).2)
  obtain ⟨c1, c2, c3, c4⟩ := ite_State_params ((button env Chrome m).1 ≠ 0)
    (button env Chrome m).2 4
  obtain ⟨d1, d2, d3, d4⟩ := button_params env Chrome m
  exact ⟨((a1.trans b1).trans c1).trans d1, ((a2.trans b2).trans c2).trans d2,
    ((a3.trans b3).trans c3).trans d3, ((a4.trans b4).trans c4).trans d4⟩

theorem loop_frame {env : Env} {fuel : Nat} {m m' : Machine}
    (h : loop env fuel m = some m') :
    ((m.State ≠ 3 ∨ (button env Rot (rotary env 3 m)).1 = 0) → m'.eeprom = m.eeprom) ∧
    (m.State ≠ 1 → m'.TimeSPoint = m.TimeSPoint) ∧
    (m.State ≠ 2 → m'.VacSPoint = m.VacSPoint) ∧
    (m.State ≠ 3 → m'.dblSide = m.dblSide) := by
  by_cases h0 : m.State = 0
  · obtain ⟨e1, e2, e3, e4⟩ := loop_0_params h0 h
    exact ⟨fun _ => e1, fun _ => e3, fun _ => e2, fun _ => e4⟩
  by_cases h1 : m.State = 1
  · rw [loop_1 env fuel m h1] at h
    injection h with h
    subst h
    obtain ⟨a1, a2, a3, a4⟩ := ite_State_params ((button env Rot (rotary env 1 m)).1 ≠ 0)
      (button env Rot (rotary env 1 m)).2 2
    obtain ⟨b1, b2, b3, b4⟩ := button_params env Rot (rotary env 1 m)
    obtain ⟨-, r1, -⟩ := rotary_frame env 1 m
    obtain ⟨⟨r2, r3⟩, -⟩ := rotary_params env m
    exact ⟨fun _ => (a1.trans b1).trans r1, fun hne => absurd h1 hne,
      fun _ => (a2.trans b2).trans r2, fun _ => (a4.trans b4).trans r3⟩
  by_cases h2 : m.State = 2
  · rw [loop_2 env fuel m h2] at h
    injection h with h
    subst h
    obtain ⟨a1, a2, a3, a4⟩ := ite_State_params ((button env Rot (rotary env 2 m)).1 ≠ 0)
      (button env Rot (rotary env 2 m)).2 3
    obtain ⟨b1, b2, b3, b4⟩ := button_params env Rot (rotary env 2 m)
    obtain ⟨-, r1, -⟩ := rotary_frame env 2 m
    obtain ⟨-, r2, r3⟩ := rotary_params env m
    exact ⟨fun _ => (a1.trans b1).trans r1, fun _ => (a3.trans b3).trans r2,
      fun hne => absurd h2 hne, fun _ => (a4.trans b4).trans r3⟩
  by_cases h3 : m.State = 3
  · rw [loop_3 env fuel m h3] at h
    injection h with h
    subst h
    obtain ⟨b1, b2, b3, b4⟩ := button_params env Rot (rotary env 3 m)
    obtain ⟨-, r1, -⟩ := rotary_frame env 3 m
    obtain ⟨r2, r3⟩ := rotary_3_frame env m
    refine ⟨?_, ?_, ?_, fun hne => absurd h3 hne⟩
    · intro hc
      rcases hc with hc | hc
      · exact absurd h3 hc
      · rw [if_neg (by simp [hc])]
        exact b1.trans r1
    · intro _
      split_ifs
      · exact ((commitParams_params _).2.1.trans b3).trans r3
      · exact b3.trans r3
    · intro _
      split_ifs
      · exact ((commitParams_params _).1.trans b2).trans r2
      · exact b2.trans r2
  by_cases h4 : m.State = 4
  · rw [loop_4 env fuel m h4] at h
    obtain ⟨e1, e2, e3, e4⟩ := expose_params h
    exact ⟨fun _ => e1, fun _ => e3, fun _ => e2, fun _ => e4⟩
  · rw [loop_other env fuel m h0 h1 h2 h3 h4] at h
    injection h with h
    subst h
    exact ⟨fun _ => rfl, fun _ => rfl, fun _ => rfl, fun _ => rfl⟩

theorem commitParams_other (x : Machine) (a : Nat) (h11 : a ≠ 11) (h12 : a ≠ 12)
    (h13 : a ≠ 13) (h14 : a ≠ 14) : (commitParams x).eeprom a = x.eeprom a := by
  simp [commitParams, EEPROM_write, Function.update, h11, h12, h13, h14]

theorem commitParams_dblSide (s : Machine) (d : Int) :
    (commitParams { s with dblSide := d }).eeprom = (commitParams s).eeprom := by
  simp only [commitParams, EEPROM_write]

theorem loadParams_dblSide (s : Machine) (d : Int) :
    (loadParams s).dblSide = s.dblSide ∧
    (loadParams { s with dblSide := d }).VacSPoint = (loadParams s).VacSPoint ∧
    (loadParams { s with dblSide := d }).TimeSPoint = (loadParams s).TimeSPoint := by
  refine ⟨?_, ?_, ?_⟩ <;> simp only [loadParams, EEPROM_read]

/-- C13: a pass of `loop` that returns changes the EEPROM only when it starts
in state 3 and the poll of the encoder button reports an edge.  It then leaves
every byte other than bytes 11 to 14 as it was and stores in these the low and
high bytes of `VacSPoint` and `TimeSPoint`.  A pass in state 4, that is a whole
run of `expose`, leaves the EEPROM unchanged.  `dblSide` has no influence on the
bytes written, and loading the setpoints neither changes nor uses it. -/
theorem C13_storage_written_on_commit (env : Env) (fuel : Nat) (m m' : Machine)
    (h : loop env fuel m = some m') :
    (m'.eeprom ≠ m.eeprom → m.State = 3 ∧ (button env Rot (rotary env 3 m)).1 ≠ 0) ∧
    (m.State = 3 → (button env Rot (rotary env 3 m)).1 ≠ 0 →
      (∀ a, a ≠ 11 → a ≠ 12 → a ≠ 13 → a ≠ 14 → m'.eeprom a = m.eeprom a) ∧
      m'.eeprom 11 = toU8 (m.VacSPoint % 256) ∧ m'.eeprom 12 = toU8 (m.VacSPoint / 256) ∧
      m'.eeprom 13 = toU8 (m.TimeSPoint % 256) ∧ m'.eeprom 14 = toU8 (m.TimeSPoint / 256)) ∧
    (m.State = 4 → m'.eeprom = m.eeprom) ∧
    (∀ (s : Machine) (d : Int),
      (commitParams { s with dblSide := d }).eeprom = (commitParams s).eeprom ∧
      (loadParams s).dblSide = s.dblSide ∧
      (loadParams { s with dblSide := d }).VacSPoint = (loadParams s).VacSPoint ∧
      (loadParams { s with dblSide := d }).TimeSPoint = (loadParams s).TimeSPoint) := by
  obtain ⟨hE, -, -, -⟩ := loop_frame h
  refine ⟨?_, ?_, ?_, fun s d => ⟨commitParams_dblSide s d, loadParams_dblSide s d⟩⟩
  · intro hne
    by_contra hc
    apply hne
    apply hE
    by_cases h3 : m.State = 3
    · right
      by_contra hb
      exact hc ⟨h3, hb⟩
    · exact Or.inl h3
  · intro h3 hb
    rw [loop_3 env fuel m h3, if_pos hb] at h
    injection h with h
    subst h
    obtain ⟨b1, b2, b3, -⟩ := button_params env Rot (rotary env 3 m)
    obtain ⟨-, r1, -⟩ := rotary_frame env 3 m
    obtain ⟨r2, r3⟩ := rotary_3_frame env m
    obtain ⟨c11, c12, c13, c14⟩ := commitParams_eeprom (button env Rot (rotary env 3 m)).2
    rw [b2, r2] at c11 c12
    rw [b3, r3] at c13 c14
    refine ⟨?_, c11, c12, c13, c14⟩
    intro a h11 h12 h13 h14
    exact (commitParams_other _ a h11 h12 h13 h14).trans (by rw [b1, r1])
  · intro h4
    exact hE (Or.inl (by rw [h4]; decide))

theorem C13_storage_written_on_commit_witness :
    (∃ m', loop envP 0 machineP = some m' ∧
      (∀ a, a ≠ 11 → a ≠ 12 → a ≠ 13 → a ≠ 14 → m'.eeprom a = machineP.eeprom a) ∧
      m'.eeprom 11 = toU8 (500 % 256) ∧ m'.eeprom 12 = toU8 (500 / 256) ∧
      m'.eeprom 13 = toU8 (2 % 256) ∧ m'.eeprom 14 = toU8 (2 / 256)) ∧
    (∃ m', loop envS 12 machineS2 = some m' ∧ m'.eeprom = machineS2.eeprom) :=
  ⟨⟨_, rfl, (C13_storage_written_on_commit envP 0 machineP _ rfl).2.1 (by decide) (by decide)⟩,
   ⟨_, rfl, (C13_storage_written_on_commit envS 12 machineS2 _ rfl).2.2.1 (by decide)⟩⟩

/-- C14: a pass of `loop` that returns leaves `VacSPoint`, `TimeSPoint` and
`dblSide` unchanged unless it starts in state 1, 2 or 3; so does every run of
`expose` that returns.  A pass in state 1 can change `TimeSPoint` only, a pass
in state 2 `VacSPoint` only, and a pass in state 3 `dblSide` only. -/
theorem C14_parameters_edited_in_place (env : Env) (fuel : Nat) (m m' : Machine)
    (h : loop env fuel m = some m') :
    ((m.State ≠ 1 ∧ m.State ≠ 2 ∧ m.State ≠ 3) →
      m'.VacSPoint = m.VacSPoint ∧ m'.TimeSPoint = m.TimeSPoint ∧ m'.dblSide = m.dblSide) ∧
    (m.State = 1 → m'.VacSPoint = m.VacSPoint ∧ m'.dblSide = m.dblSide) ∧
    (m.State = 2 → m'.TimeSPoint = m.TimeSPoint ∧ m'.dblSide = m.dblSide) ∧
    (m.State = 3 → m'.VacSPoint = m.VacSPoint ∧ m'.TimeSPoint = m.TimeSPoint) ∧
    (∀ (f : Nat) (s s' : Machine), expose env f s = some s' →
      s'.VacSPoint = s.VacSPoint ∧ s'.TimeSPoint = s.TimeSPoint ∧ s'.dblSide = s.dblSide) := by
  obtain ⟨-, hT, hV, hd⟩ := loop_frame h
  refine ⟨?_, ?_, ?_, ?_, ?_⟩
  · rintro ⟨h1, h2, h3⟩
    exact ⟨hV h2, hT h1, hd h3⟩
  · intro h1
    exact ⟨hV (by rw [h1]; decide), hd (by rw [h1]; decide)⟩
  · intro h2
    exact ⟨hT (by rw [h2]; decide), hd (by rw [h2]; decide)⟩
  · intro h3
    exact ⟨hV (by rw [h3]; decide), hT (by rw [h3]; decide)⟩
  · intro f s s' hs
    obtain ⟨-, e2, e3, e4⟩ := expose_params hs
    exact ⟨e2, e3, e4⟩

theorem C14_parameters_edited_in_place_witness :
    (∃ m', loop envT 0 machineO = some m' ∧ m'.TimeSPoint ≠ machineO.TimeSPoint ∧
      m'.VacSPoint = machineO.VacSPoint ∧ m'.dblSide = machineO.dblSide) ∧
    (∃ m', loop envS 12 machineS2 = some m' ∧ m'.VacSPoint = machineS2.VacSPoint ∧
      m'.TimeSPoint = machineS2.TimeSPoint ∧ m'.dblSide = machineS2.dblSide) :=
  ⟨⟨_, rfl, by decide, (C14_parameters_edited_in_place envT 0 machineO _ rfl).2.1 (by decide)⟩,
   ⟨_, rfl, (C14_parameters_edited_in_place envS 12 machineS2 _ rfl).1 (by decide)⟩⟩

/-! ## One call of the regulator -/

theorem Cont_of_le {d c e : Int} (h : floatToInt (pid d c e) ≤ 255) :
    Cont d c e = floatToInt (pid d c e) := by
  simp only [Cont]
  rw [if_neg (by omega)]

/-- C15 (amended): whenever the controller output of a call of `vacuum`, the
sum 50 + Kp*error + Ki*cumulativeError + Kd*derivative computed in `float`
arithmetic as line 169 does, each product and each sum rounded, with its
fraction discarded, is at most 255, that value is the one written to the pump;
no lower limit is applied.  The value computed in `float` differs from the sum
with Kp = 0.52, Ki = 0.1 and Kd = 0 by at most 1/200.  With a setpoint of
100 hPa, a pressure of 510 hPa and the regulator at rest the value written is
-204. -/
theorem C15_no_lower_clamp (env : Env) (m : Machine)
    (h : floatToInt (pid (vacuum env m).PrevDif (vacuum env m).CumDif
      (vacuum env m).MomDif) ≤ 255) :
    ((vacuum env m).out = m.out ++ [Out.pwmWrite PumpPin
        (floatToInt (pid (vacuum env m).PrevDif (vacuum env m).CumDif
          (vacuum env m).MomDif))] ∧
      lastPwm (vacuum env m).out PumpPin =
        some (floatToInt (pid (vacuum env m).PrevDif (vacuum env m).CumDif
          (vacuum env m).MomDif))) ∧
    (pid (vacuum env m).PrevDif (vacuum env m).CumDif (vacuum env m).MomDif =
        Float32.add
          (Float32.add
            (Float32.add (Float32.ofInt 50)
              (Float32.mul Kp (Float32.ofInt (vacuum env m).PrevDif)))
            (Float32.mul Ki (Float32.ofInt (vacuum env m).CumDif)))
          (Float32.mul Kd (Float32.ofInt (vacuum env m).MomDif)) ∧
      |(pid (vacuum env m).PrevDif (vacuum env m).CumDif (vacuum env m).MomDif).toRat -
          (50 + 52 / 100 * ((vacuum env m).PrevDif : ℚ)
            + 100 / 1000 * ((vacuum env m).CumDif : ℚ)
            + 0 * ((vacuum env m).MomDif : ℚ))| ≤ 1 / 200) ∧
    (machineN.VacSPoint = 100 ∧ (vacuum envN machineN).press = 510 ∧
      lastPwm (vacuum envN machineN).out PumpPin = some (-204)) := by
  have hc : Cont (vacuum env m).PrevDif (vacuum env m).CumDif (vacuum env m).MomDif =
      floatToInt (pid (vacuum env m).PrevDif (vacuum env m).CumDif
        (vacuum env m).MomDif) := Cont_of_le h
  have hd : -32768 ≤ (vacuum env m).PrevDif ∧ (vacuum env m).PrevDif ≤ 32767 :=
    wrap16_range (m.VacSPoint - (vacuum env m).press)
  have hcu : -32768 ≤ (vacuum env m).CumDif ∧ (vacuum env m).CumDif ≤ 32767 :=
    wrap16_range (m.CumDif + (vacuum env m).PrevDif)
  have herr := pid_err (vacuum env m).PrevDif (vacuum env m).CumDif (vacuum env m).MomDif hd hcu
  refine ⟨⟨?_, ?_⟩, ⟨rfl, ?_⟩, by decide, by decide, by decide⟩
  · rw [vacuum_out, hc]
  · rw [vacuum_out, hc]; exact lastPwm_append_pwm _ _ _
  · have e : (50 + 52 / 100 * ((vacuum env m).PrevDif : ℚ)
        + 100 / 1000 * ((vacuum env m).CumDif : ℚ) + 0 * ((vacuum env m).MomDif : ℚ)) =
        50 + 52 / 100 * ((vacuum env m).PrevDif : ℚ) + 1 / 10 * ((vacuum env m).CumDif : ℚ) := by
      ring
    rw [e]
    exact herr

theorem C15_no_lower_clamp_witness :
    floatToInt (pid (vacuum envN machineN).PrevDif (vacuum envN machineN).CumDif
      (vacuum envN machineN).MomDif) ≤ 255 ∧
    (vacuum envN machineN).PrevDif = -410 ∧ (vacuum envN machineN).CumDif = -410 ∧
    floatToInt (pid (-410) (-410) (-410)) = -204 ∧
    lastPwm (vacuum envN machineN).out PumpPin =
      some (floatToInt (pid (vacuum envN machineN).PrevDif (vacuum envN machineN).CumDif
        (vacuum envN machineN).MomDif)) :=
  ⟨by decide, by decide, by decide, by decide,
    (C15_no_lower_clamp envN machineN (by decide)).1.2⟩

/-- C15 fails as stated: with an error of -105 and a cumulative error of -4 the
sum 50 + 0.52 * (-105) + 0.1 * (-4) is -5, an integer below 255, and the value
written to the pump is -4: the product 0.52 * (-105) computed in `float` is
above -54.6, and the sum computed in `float` is above -5. -/
theorem C15_sum_rounded :
    ((vacuum envN machineR).PrevDif = -105 ∧ (vacuum envN machineR).CumDif = -4 ∧
      (vacuum envN machineR).MomDif = -105) ∧
    (50 + 52 / 100 * (-105) + 100 / 1000 * (-4) + 0 * (-105) : ℚ) = -5 ∧
    (pid (-105) (-4) (-105) = { man := -10485757, exp := -21 } ∧
      floatToInt (pid (-105) (-4) (-105)) = -4) ∧
    lastPwm (vacuum envN machineR).out PumpPin = some (-4) :=
  ⟨by decide, by norm_num, by decide, by decide⟩

theorem wrap32_of_range {x : Int} (h : -2147483648 ≤ x ∧ x ≤ 2147483647) : wrap32 x = x := by
  unfold wrap32; omega

/-- C16 (amended): one call of `vacuum` with raw sample `r` leaves
`press = (r - zero) / 20290`, the difference taken as a 32-bit `long`, the
quotient truncated toward zero and stored in a 16-bit `int`;
`PrevDif = VacSPoint - press`, `CumDif = old CumDif + PrevDif` and
`MomDif = PrevDif - old PrevDif`, each reduced to a 16-bit `int`; it writes
`Cont PrevDif CumDif MomDif` to the pump and leaves `zero` and both setpoints
unchanged.  Each of the four values is the plain difference, quotient or sum
whenever that lies in the range of its type. -/
theorem C16_regulator_step (env : Env) (m : Machine) :
    ((vacuum env m).press =
        wrap16 (Int.tdiv (wrap32 (wrap32 (env.sensor m.nSensor) - m.zero)) 20290) ∧
      (vacuum env m).PrevDif = wrap16 (m.VacSPoint - (vacuum env m).press) ∧
      (vacuum env m).CumDif = wrap16 (m.CumDif + (vacuum env m).PrevDif) ∧
      (vacuum env m).MomDif = wrap16 ((vacuum env m).PrevDif - m.PrevDif)) ∧
    ((vacuum env m).out = m.out ++ [Out.pwmWrite PumpPin
        (Cont (vacuum env m).PrevDif (vacuum env m).CumDif (vacuum env m).MomDif)] ∧
      (vacuum env m).zero = m.zero ∧ (vacuum env m).VacSPoint = m.VacSPoint ∧
      (vacuum env m).TimeSPoint = m.TimeSPoint) ∧
    (((-2147483648 ≤ wrap32 (env.sensor m.nSensor) - m.zero ∧
          wrap32 (env.sensor m.nSensor) - m.zero ≤ 2147483647) →
        (-32768 ≤ Int.tdiv (wrap32 (env.sensor m.nSensor) - m.zero) 20290 ∧
          Int.tdiv (wrap32 (env.sensor m.nSensor) - m.zero) 20290 ≤ 32767) →
        (vacuum env m).press = Int.tdiv (wrap32 (env.sensor m.nSensor) - m.zero) 20290) ∧
      ((-32768 ≤ m.VacSPoint - (vacuum env m).press ∧
          m.VacSPoint - (vacuum env m).press ≤ 32767) →
        (vacuum env m).PrevDif = m.VacSPoint - (vacuum env m).press) ∧
      ((-32768 ≤ m.CumDif + (vacuum env m).PrevDif ∧
          m.CumDif + (vacuum env m).PrevDif ≤ 32767) →
        (vacuum env m).CumDif = m.CumDif + (vacuum env m).PrevDif) ∧
      ((-32768 ≤ (vacuum env m).PrevDif - m.PrevDif ∧
          (vacuum env m).PrevDif - m.PrevDif ≤ 32767) →
        (vacuum env m).MomDif = (vacuum env m).PrevDif - m.PrevDif)) := by
  refine ⟨⟨rfl, rfl, rfl, rfl⟩, ⟨vacuum_out env m, rfl, rfl, rfl⟩, ?_, ?_, ?_, ?_⟩
  · intro h1 h2
    show wrap16 (Int.tdiv (wrap32 (wrap32 (env.sensor m.nSensor) - m.zero)) 20290) = _
    rw [wrap32_of_range h1, wrap16_of_range h2]
  · intro h
    show wrap16 (m.VacSPoint - (vacuum env m).press) = _
    exact wrap16_of_range h
  · intro h
    show wrap16 (m.CumDif + (vacuum env m).PrevDif) = _
    exact wrap16_of_range h
  · intro h
    show wrap16 ((vacuum env m).PrevDif - m.PrevDif) = _
    exact wrap16_of_range h

theorem C16_regulator_step_witness :
    (vacuum envA machineA).press = Int.tdiv (-2376800 - -4000000) 20290 ∧
    (vacuum envA machineA).press = 80 ∧
    (vacuum envA machineA).PrevDif = 500 - 80 ∧
    (vacuum envA machineA).CumDif = 0 + 420 ∧
    (vacuum envA machineA).MomDif = 420 - 0 := by
  have h := (C16_regulator_step envA machineA).2.2
  exact ⟨h.1 (by decide) (by decide), by decide, h.2.1 (by decide), h.2.2.1 (by decide),
    h.2.2.2 (by decide)⟩

/-- C16 fails as stated: with the integrator at 32700 and an error of 420 the
call leaves -32416 in `CumDif`, not 33120. -/
theorem C16_integrator_wraps :
    machineW.CumDif = 32700 ∧ (vacuum envA machineW).press = 80 ∧
    (vacuum envA machineW).PrevDif = 420 ∧ (vacuum envA machineW).CumDif = -32416 ∧
    (vacuum envA machineW).CumDif ≠ machineW.CumDif + (vacuum envA machineW).PrevDif := by
  decide

/-! ## Choice of sides -/

theorem rotaryStep_values (a A B : Int) :
    rotaryStep a A B = 0 ∨ rotaryStep a A B = 1 ∨ rotaryStep a A B = -1 := by
  simp only [rotaryStep]
  split_ifs <;> simp

theorem rotary_3_dblSide (env : Env) (m : Machine) :
    (rotary env 3 m).dblSide =
      if rotaryStep m.prevA (sampleA env m) (sampleB env m) = 0 then m.dblSide
      else if rotaryStep m.prevA (sampleA env m) (sampleB env m) = 1 then 1 else 0 := by
  simp only [rotary, rotaryStep, sampleA, sampleB, digitalRead, millis]
  split_ifs <;> simp_all

/-- C17 (amended): in state 3 a decoded step sets `dblSide` by its direction,
whatever the value was before: a step +1 (clockwise) leaves 1 in `dblSide`, a
step -1 leaves 0, and a sample with no change of channel A leaves `dblSide`
unchanged. -/
theorem C17_side_set_by_direction (env : Env) (m : Machine) :
    (rotaryStep m.prevA (sampleA env m) (sampleB env m) = 1 → (rotary env 3 m).dblSide = 1) ∧
    (rotaryStep m.prevA (sampleA env m) (sampleB env m) = -1 → (rotary env 3 m).dblSide = 0) ∧
    (rotaryStep m.prevA (sampleA env m) (sampleB env m) = 0 →
      (rotary env 3 m).dblSide = m.dblSide) ∧
    (rotaryStep m.prevA (sampleA env m) (sampleB env m) = 0 ∨
      rotaryStep m.prevA (sampleA env m) (sampleB env m) = 1 ∨
      rotaryStep m.prevA (sampleA env m) (sampleB env m) = -1) ∧
    (sampleA env m = m.prevA → (rotary env 3 m).dblSide = m.dblSide) := by
  have h := rotary_3_dblSide env m
  refine ⟨?_, ?_, ?_, rotaryStep_values _ _ _, ?_⟩
  · intro h1; rw [h, h1]; simp
  · intro h1; rw [h, h1]; simp
  · intro h0; rw [h, if_pos h0]
  · intro hA
    rw [h, if_pos (by simp [rotaryStep, hA])]

theorem C17_side_set_by_direction_witness :
    (machineO.dblSide = 0 ∧
      rotaryStep machineO.prevA (sampleA envT machineO) (sampleB envT machineO) = 1 ∧
      (rotary envT 3 machineO).dblSide = 1) ∧
    (machineQ.dblSide = 1 ∧ (rotary envT 3 machineQ).dblSide = 1) :=
  ⟨⟨by decide, by decide, (C17_side_set_by_direction envT machineO).1 (by decide)⟩,
    by decide, (C17_side_set_by_direction envT machineQ).1 (by decide)⟩

/-- C17 fails as stated: with `dblSide` at 1 a clockwise step leaves it at 1,
not at its negation 0, also as the outcome of a whole pass of `loop`. -/
theorem C17_step_does_not_toggle :
    machineQ.State = 3 ∧ machineQ.dblSide = 1 ∧
    rotaryStep machineQ.prevA (sampleA envT machineQ) (sampleB envT machineQ) = 1 ∧
    (rotary envT 3 machineQ).dblSide = 1 ∧
    (rotary envT 3 machineQ).dblSide ≠ (if machineQ.dblSide = 0 then 1 else 0) ∧
    (loop envT 0 machineQ).map (fun r => r.dblSide) = some 1 := by
  decide

/-! ## One poll of a button -/

theorem button_result (env : Env) (p : Nat) (m : Machine) :
    ((button env p m).1 ≠ 0 ↔
      (env.pin p m.nRead = false ∧ m.prevBut = 1 ∧
        debTime < wrapU32 ((env.clock m.nClock % 4294967296 : Nat) - (m.lastpush : Int)))) ∧
    ((button env p m).1 = 0 ∨ (button env p m).1 = 1) := by
  simp only [button, digitalRead, millis]
  split_ifs <;> simp_all

theorem button_window (env : Env) (p : Nat) (m : Machine) :
    (debTime < wrapU32 ((env.clock m.nClock % 4294967296 : Nat) - (m.lastpush : Int)) →
      (button env p m).2.lastpush = env.clock (m.nClock + 1) % 4294967296) ∧
    (¬ debTime < wrapU32 ((env.clock m.nClock % 4294967296 : Nat) - (m.lastpush : Int)) →
      (button env p m).2.lastpush = m.lastpush ∧ (button env p m).2.prevBut = m.prevBut) := by
  simp only [button, digitalRead, millis]
  split_ifs <;> simp_all

/-- C18 (amended): a poll reports an edge exactly when the sampled level is low,
the stored previous level `prevBut` is 1, and more than 20 ms, counted modulo
2^32, lie between the time in `lastpush` and the clock reading of the poll; it
then stores 0 in `prevBut`, and the next poll reports no edge.  Every poll that
finds more than 20 ms elapsed stores the current time in `lastpush`, whether
it accepts a level transition or not; a poll that does not find them elapsed
changes neither `lastpush` nor `prevBut`. -/
theorem C18_poll_reports_edge (env : Env) (p : Nat) (m : Machine) :
    ((button env p m).1 ≠ 0 ↔
      (env.pin p m.nRead = false ∧ m.prevBut = 1 ∧
        debTime < wrapU32 ((env.clock m.nClock % 4294967296 : Nat) - (m.lastpush : Int)))) ∧
    ((button env p m).1 = 0 ∨ (button env p m).1 = 1) ∧
    ((button env p m).1 ≠ 0 →
      (button env p m).2.prevBut = 0 ∧ (button env p (button env p m).2).1 = 0) ∧
    (debTime < wrapU32 ((env.clock m.nClock % 4294967296 : Nat) - (m.lastpush : Int)) →
      (button env p m).2.lastpush = env.clock (m.nClock + 1) % 4294967296) ∧
    (¬ debTime < wrapU32 ((env.clock m.nClock % 4294967296 : Nat) - (m.lastpush : Int)) →
      (button env p m).2.lastpush = m.lastpush ∧ (button env p m).2.prevBut = m.prevBut) := by
  obtain ⟨h1, h2⟩ := button_result env p m
  obtain ⟨h3, h4⟩ := button_window env p m
  exact ⟨h1, h2, fun h => ⟨button_push env p m h, button_no_push env p _ (button_push env p m h)⟩,
    h3, h4⟩

theorem C18_poll_reports_edge_witness :
    (envX1.pin Chrome machineX.nRead = false ∧ machineX.prevBut = 1 ∧
      machineX.lastpush = 0 ∧ envX1.clock machineX.nClock = 1000) ∧
    (button envX1 Chrome machineX).1 ≠ 0 ∧
    ((button envX1 Chrome machineX).2.prevBut = 0 ∧
      (button envX1 Chrome (button envX1 Chrome machineX).2).1 = 0) ∧
    (button envX1 Chrome machineX).2.lastpush = 1000 :=
  ⟨by decide, by decide,
    (C18_poll_reports_edge envX1 Chrome machineX).2.2.1 (by decide),
    (C18_poll_reports_edge envX1 Chrome machineX).2.2.2.1 (by decide)⟩

/-- C18 fails as stated: the poll at 50 ms accepts the transition to the
released level; the poll at 100 ms samples the button still released, accepts
no transition, and yet stores 100 in `lastpush`; the poll at 110 ms samples
the button pressed with the previous level high, 60 ms after the last accepted
transition, and reports no edge. -/
theorem C18_window_restarted :
    ((boot blankRom).prevBut = 0 ∧ (pollNext envW Chrome (boot blankRom)).prevBut = 1 ∧
      (pollNext envW Chrome (boot blankRom)).lastpush = 50) ∧
    ((button envW Chrome (pollNext envW Chrome (boot blankRom))).1 = 0 ∧
      ((pollNext envW Chrome)^[2] (boot blankRom)).prevBut = 1 ∧
      ((pollNext envW Chrome)^[2] (boot blankRom)).lastpush = 100) ∧
    (envW.pin Chrome ((pollNext envW Chrome)^[2] (boot blankRom)).nRead = false ∧
      envW.clock ((pollNext envW Chrome)^[2] (boot blankRom)).nClock = 110 ∧
      (button envW Chrome ((pollNext envW Chrome)^[2] (boot blankRom))).1 = 0) := by
  decide

/-! ## The integrator over an exposure -/

theorem button_regulator (env : Env) (p : Nat) (m : Machine) :
    (button env p m).2.CumDif = m.CumDif ∧ (button env p m).2.PrevDif = m.PrevDif ∧
    (button env p m).2.press = m.press := by
  simp only [button, digitalRead, millis]
  split_ifs <;> exact ⟨rfl, rfl, rfl⟩

theorem rotary_regulator (env : Env) (param : Int) (m : Machine) :
    (rotary env param m).CumDif = m.CumDif ∧ (rotary env param m).PrevDif = m.PrevDif := by
  simp only [rotary, digitalRead, millis]
  split_ifs <;> (try split) <;> exact ⟨rfl, rfl⟩

theorem exposeStart_regulator (env : Env) (p : Machine) :
    (exposeStart env p).CumDif = p.CumDif ∧ (exposeStart env p).PrevDif = p.PrevDif ∧
    (exposeStart env p).press = p.press := by
  simp only [exposeStart, millis, digitalWrite]
  split_ifs <;> exact ⟨rfl, rfl, rfl⟩

theorem exposeIter_regulator (env : Env) (s : Machine) :
    (exposeIter env s).PrevDif = wrap16 (s.VacSPoint - (exposeIter env s).press) ∧
    (exposeIter env s).CumDif = wrap16 (s.CumDif + (exposeIter env s).PrevDif) := by
  obtain ⟨h1, h2, h3⟩ := button_regulator env Chrome (vacuum env (millis env s).2)
  simp only [exposeIter, exposeBody]
  rw [h1, h2, h3]
  exact ⟨rfl, rfl⟩

theorem iterate_CumDif (f : Machine → Machine)
    (hf : ∀ s, (f s).CumDif = wrap16 (s.CumDif + (f s).PrevDif)) (n : Nat) :
    ∀ m : Machine, (f^[n + 1] m).CumDif = wrap16 (m.CumDif + errSum f (n + 1) m) := by
  induction n with
  | zero => intro m; simp [errSum, hf]
  | succ n ih =>
    intro m
    rw [Function.iterate_succ_apply, ih (f m), hf m, wrap16_add_wrap16]
    conv_rhs => rw [errSum]
    rw [add_assoc]

theorem exposeLoop_some (env : Env) (fuel : Nat) : ∀ (s r : Machine),
    exposeLoop env fuel s = some r → ∃ n, r = (exposeIter env)^[n + 1] s := by
  induction fuel with
  | zero => intro s r h; simp [exposeLoop] at h
  | succ f ih =>
    intro s r h
    rw [exposeLoop_succ] at h
    split_ifs at h with hx
    · injection h with h
      exact ⟨0, h.symm⟩
    · obtain ⟨n, hn⟩ := ih _ _ h
      exact ⟨n + 1, by rw [hn]; rfl⟩

theorem iterate_succ_PrevDif (f : Machine → Machine) (n : Nat) (m : Machine)
    (hf : ∀ s, (f s).PrevDif = wrap16 (s.VacSPoint - (f s).press)) :
    (f^[n + 1] m).PrevDif = wrap16 ((f^[n] m).VacSPoint - (f^[n + 1] m).press) := by
  rw [Function.iterate_succ_apply']
  exact hf _

theorem ite_State_regulator (c : Prop) [Decidable c] (x : Machine) (s : Int) :
    (if c then { x with State := s } else x).CumDif = x.CumDif ∧
    (if c then { x with State := s } else x).PrevDif = x.PrevDif := by
  split_ifs <;> exact ⟨rfl, rfl⟩

theorem loop_regulator {env : Env} {fuel : Nat} {m m' : Machine} (h4 : m.State ≠ 4)
    (h : loop env fuel m = some m') : m'.CumDif = m.CumDif ∧ m'.PrevDif = m.PrevDif := by
  by_cases h0 : m.State = 0
  · rw [loop_0 env fuel m h0] at h
    injection h with h
    subst h
    obtain ⟨a1, a2⟩ := ite_State_regulator
      ((button env Rot (if (button env Chrome m).1 ≠ 0
        then { (button env Chrome m).2 with State := 4 } else (button env Chrome m).2)).1 ≠ 0)
      (button env Rot (if (button env Chrome m).1 ≠ 0
        then { (button env Chrome m).2 with State := 4 } else (button env Chrome m).2)).2 1
    obtain ⟨b1, b2, -⟩ := button_regulator env Rot (if (button env Chrome m).1 ≠ 0
        then { (button env Chrome m).2 with State := 4 } else (button env Chrome m).2)
    obtain ⟨c1, c2⟩ := ite_State_regulator ((button env Chrome m).1 ≠ 0)
      (button env Chrome m).2 4
    obtain ⟨d1, d2, -⟩ := button_regulator env Chrome m
    exact ⟨((a1.trans b1).trans c1).trans d1, ((a2.trans b2).trans c2).trans d2⟩
  by_cases h1 : m.State = 1
  · rw [loop_1 env fuel m h1] at h
    injection h with h
    subst h
    obtain ⟨a1, a2⟩ := ite_State_regulator ((button env Rot (rotary env 1 m)).1 ≠ 0)
      (button env Rot (rotary env 1 m)).2 2
    obtain ⟨b1, b2, -⟩ := button_regulator env Rot (rotary env 1 m)
    obtain ⟨r1, r2⟩ := rotary_regulator env 1 m
    exact ⟨(a1.trans b1).trans r1, (a2.trans b2).trans r2⟩
  by_cases h2 : m.State = 2
  · rw [loop_2 env fuel m h2] at h
    injection h with h
    subst h
    obtain ⟨a1, a2⟩ := ite_State_regulator ((button env Rot (rotary env 2 m)).1 ≠ 0)
      (button env Rot (rotary env 2 m)).2 3
    obtain ⟨b1, b2, -⟩ := button_regulator env Rot (rotary env 2 m)
    obtain ⟨r1, r2⟩ := rotary_regulator env 2 m
    exact ⟨(a1.trans b1).trans r1, (a2.trans b2).trans r2⟩
  by_cases h3 : m.State = 3
  · rw [loop_3 env fuel m h3] at h
    injection h with h
    subst h
    obtain ⟨b1, b2, -⟩ := button_regulator env Rot (rotary env 3 m)
    obtain ⟨r1, r2⟩ := rotary_regulator env 3 m
    obtain ⟨-, -, -, k1, k2⟩ := commitParams_params (button env Rot (rotary env 3 m)).2
    split_ifs
    · exact ⟨(k1.trans b1).trans r1, (k2.trans b2).trans r2⟩
    · exact ⟨b1.trans r1, b2.trans r2⟩
  · rw [loop_other env fuel m h0 h1 h2 h3 h4] at h
    injection h with h
    subst h
    exact ⟨rfl, rfl⟩

theorem exposeEnd_regulator (x : Machine) :
    (exposeEnd x).CumDif = x.CumDif ∧ (exposeEnd x).PrevDif = x.PrevDif ∧
    (exposeEnd x).press = x.press ∧ (exposeEnd x).VacSPoint = x.VacSPoint :=
  ⟨rfl, rfl, rfl, rfl⟩

/-- C19 (amended): nothing resets the integrator.  A run of `expose` that
returns made `j + 1` calls of `vacuum` in the pre-charge and `n + 1` in the
exposure loop, and leaves in `CumDif` its value at entry plus the sum of the
errors `VacSPoint - press` of all these calls, reduced to a 16-bit `int` (the
plain sum whenever that is between -32768 and 32767), and in `PrevDif` the
error of the last call.  A button poll, a call of `rotary`, the commit of the
setpoints and every pass of `loop` outside state 4 leave `CumDif` and `PrevDif`
as they are, so the values are those the next exposure starts with. -/
theorem C19_integrator_carries_over (env : Env) (fuel : Nat) (m m' : Machine)
    (h : expose env fuel m = some m') :
    (∃ j n,
      m' = exposeEnd ((exposeIter env)^[n + 1] (exposeStart env ((vacuum env)^[j + 1] m))) ∧
      m'.CumDif = wrap16 (m.CumDif + (errSum (vacuum env) (j + 1) m +
        errSum (exposeIter env) (n + 1) (exposeStart env ((vacuum env)^[j + 1] m)))) ∧
      ((-32768 ≤ m.CumDif + (errSum (vacuum env) (j + 1) m +
            errSum (exposeIter env) (n + 1) (exposeStart env ((vacuum env)^[j + 1] m))) ∧
          m.CumDif + (errSum (vacuum env) (j + 1) m +
            errSum (exposeIter env) (n + 1) (exposeStart env ((vacuum env)^[j + 1] m)))
            ≤ 32767) →
        m'.CumDif = m.CumDif + (errSum (vacuum env) (j + 1) m +
          errSum (exposeIter env) (n + 1) (exposeStart env ((vacuum env)^[j + 1] m))))) ∧
    m'.PrevDif = wrap16 (m'.VacSPoint - m'.press) ∧
    (∀ s : Machine,
      (vacuum env s).PrevDif = wrap16 (s.VacSPoint - (vacuum env s).press) ∧
      (exposeIter env s).PrevDif = wrap16 (s.VacSPoint - (exposeIter env s).press)) ∧
    (∀ (s : Machine) (q : Nat) (param : Int),
      ((button env q s).2.CumDif = s.CumDif ∧ (button env q s).2.PrevDif = s.PrevDif) ∧
      ((rotary env param s).CumDif = s.CumDif ∧ (rotary env param s).PrevDif = s.PrevDif) ∧
      ((commitParams s).CumDif = s.CumDif ∧ (commitParams s).PrevDif = s.PrevDif)) ∧
    (∀ (f : Nat) (s s' : Machine), s.State ≠ 4 → loop env f s = some s' →
      s'.CumDif = s.CumDif ∧ s'.PrevDif = s.PrevDif) := by
  obtain ⟨p, r, hp, hr, rfl⟩ := expose_some h
  obtain ⟨j, -, hpj, -, -⟩ := precharge_some env fuel m p hp
  obtain ⟨n, hn⟩ := exposeLoop_some env fuel _ _ hr
  subst hpj
  subst hn
  have hsum : (exposeEnd ((exposeIter env)^[n + 1]
        (exposeStart env ((vacuum env)^[j + 1] m)))).CumDif =
      wrap16 (m.CumDif + (errSum (vacuum env) (j + 1) m +
        errSum (exposeIter env) (n + 1) (exposeStart env ((vacuum env)^[j + 1] m)))) := by
    rw [(exposeEnd_regulator _).1, iterate_CumDif (exposeIter env) (fun s => (exposeIter_regulator env s).2) n,
      (exposeStart_regulator env _).1,
      iterate_CumDif (vacuum env) (fun s => rfl) j, wrap16_add_wrap16, add_assoc]
  refine ⟨⟨j, n, rfl, hsum, fun hr => by rw [hsum, wrap16_of_range hr]⟩, ?_,
    fun s => ⟨rfl, (exposeIter_regulator env s).1⟩,
    fun s q param => ⟨⟨(button_regulator env q s).1, (button_regulator env q s).2.1⟩,
      rotary_regulator env param s,
      ⟨(commitParams_params s).2.2.2.1, (commitParams_params s).2.2.2.2⟩⟩,
    fun f s s' h4 hl => loop_regulator h4 hl⟩
  rw [(exposeEnd_regulator _).2.1, (exposeEnd_regulator _).2.2.1,
    (exposeEnd_regulator _).2.2.2, Function.iterate_succ_apply',
    (exposeIter_regulator env _).1]
  have hV := (exposeBody_frame env ((exposeIter env)^[n]
    (exposeStart env ((vacuum env)^[j + 1] m)))).2.2.1
  simp only [exposeIter] at hV ⊢
  rw [hV]

theorem C19_integrator_carries_over_witness :
    ∃ m', expose envA 7 machineA = some m' ∧ m'.CumDif = 1320 ∧ m'.PrevDif = 0 ∧
      m'.PrevDif = wrap16 (m'.VacSPoint - m'.press) :=
  ⟨_, rfl, by decide, by decide, (C19_integrator_carries_over envA 7 machineA _ rfl).2.1⟩

/-- C19 fails as stated: entered with 32700 in `CumDif`, the exposure of the
scenario `envA`, whose errors add up to 1320, returns with -31516 in `CumDif`,
not 34020. -/
theorem C19_sum_wraps :
    machineW.CumDif = 32700 ∧
    errSum (vacuum envA) 7 machineW +
      errSum (exposeIter envA) 3 (exposeStart envA ((vacuum envA)^[7] machineW)) = 1320 ∧
    (expose envA 7 machineW).map (fun r => r.CumDif) = some (-31516) ∧
    (expose envA 7 machineW).map (fun r => r.CumDif) ≠ some (32700 + 1320) := by
  decide

/-! ## Both buttons polled in one pass -/

theorem button_cursor (env : Env) (p : Nat) (m : Machine) :
    (debTime < wrapU32 ((env.clock m.nClock % 4294967296 : Nat) - (m.lastpush : Int)) →
      (button env p m).2.nClock = m.nClock + 2) ∧
    (¬ debTime < wrapU32 ((env.clock m.nClock % 4294967296 : Nat) - (m.lastpush : Int)) →
      (button env p m).2.nClock = m.nClock + 1) := by
  simp only [button, digitalRead, millis]
  split_ifs <;> simp_all

theorem button_second_poll (env : Env) (p q : Nat) (m : Machine)
    (h1 : env.clock (m.nClock + 1) % 4294967296 = env.clock m.nClock % 4294967296)
    (h2 : env.clock (m.nClock + 2) % 4294967296 = env.clock m.nClock % 4294967296) :
    (button env q (button env p m).2).1 = 0 := by
  by_contra hne
  obtain ⟨-, -, hw⟩ := (button_result env q (button env p m).2).1.mp hne
  obtain ⟨w1, w2⟩ := button_window env p m
  obtain ⟨c1, c2⟩ := button_cursor env p m
  by_cases hW : debTime < wrapU32 ((env.clock m.nClock % 4294967296 : Nat) - (m.lastpush : Int))
  · rw [w1 hW, c1 hW, h2, h1] at hw
    simp [wrapU32, debTime] at hw
  · rw [(w2 hW).1, c2 hW, h1] at hw
    exact hW hw

/-- C20: in a pass of `loop` in state 0 in which all readings of the clock return
the same value, the poll of the encoder button reports no edge, whatever the
levels of the pins, `prevBut` and `lastpush` are; the pass returns in state 0
or 4, never in state 1.  In no pass at all do both polls report an edge. -/
theorem C20_confirm_poll_starved (env : Env) (fuel : Nat) (m : Machine) (hS : m.State = 0)
    (h1 : env.clock (m.nClock + 1) % 4294967296 = env.clock m.nClock % 4294967296)
    (h2 : env.clock (m.nClock + 2) % 4294967296 = env.clock m.nClock % 4294967296) :
    (button env Rot (button env Chrome m).2).1 = 0 ∧
    (∃ m', loop env fuel m = some m' ∧ (m'.State = 0 ∨ m'.State = 4) ∧ m'.State ≠ 1) ∧
    (∀ s : Machine,
      ¬ ((button env Chrome s).1 ≠ 0 ∧ (button env Rot (button env Chrome s).2).1 ≠ 0)) := by
  have hb := button_second_poll env Chrome Rot m h1 h2
  obtain ⟨m', hm', g4, -, g0⟩ := idle_pass env fuel m hS
  refine ⟨hb, ⟨m', hm', ?_⟩, ?_⟩
  · by_cases hc : (button env Chrome m).1 = 0
    · have := g0 hc hb
      exact ⟨Or.inl this, by rw [this]; decide⟩
    · have := g4 hc
      exact ⟨Or.inr this, by rw [this]; decide⟩
  · rintro s ⟨e1, e2⟩
    exact e2 (button_no_push env Rot _ (button_push env Chrome s e1))

theorem C20_confirm_poll_starved_witness :
    machineX.State = 0 ∧ envZ.pin Rot machineX.nRead = false ∧ machineX.prevBut = 1 ∧
    (button envZ Rot (button envZ Chrome machineX).2).1 = 0 ∧
    ∃ m', loop envZ 0 machineX = some m' ∧ (m'.State = 0 ∨ m'.State = 4) ∧ m'.State ≠ 1 :=
  ⟨by decide, by decide, by decide,
    (C20_confirm_poll_starved envZ 0 machineX (by decide) (by decide) (by decide)).1,
    (C20_confirm_poll_starved envZ 0 machineX (by decide) (by decide) (by decide)).2.1⟩

end UVExp
